import Mathlib

/-!
# Verification of the Pokemon TCG Live log parser

A shallow embedding, in Lean 4, of the log-parsing, statistics and
deck-reconstruction core of the `tcg-live-logs` repository, together with
theorems settling the specification claims about it.

Conventions of the embedding:
* JavaScript strings are Lean `String`s; character-level work happens on
  `List Char` (`String.data`).  The inputs are ASCII, for which JS and Lean
  agree on case and whitespace predicates.
* JS regular expressions are hand-translated into matching functions that
  follow the regex's backtracking semantics (greedy `\w+`/`\d+` before a
  non-member literal reduces to "maximal run"; lazy `(.+?)` groups are
  realised by `lazyPlus`, which tries the shortest extension first, exactly
  as the regex engine does).
* The process-wide mutable event-id counter is threaded explicitly as a
  `Nat` through every function that calls `generateEventId`.
* JS string truthiness (`undefined`/`""` are falsy) is modelled by
  `strTruthy : Option String → Bool`.
* `Array.prototype.sort` (stable) is modelled by a stable insertion sort;
  the infinite loop possible in `buildEvolutionRelationships` on a cyclic
  evolution map is modelled by a fuel-bounded walk returning `Option`
  (`none` = divergence), with fuel `chains.length`, which is exact: a
  terminating JS walk visits pairwise-distinct keys.
-/

namespace TcgLogs

/-! ## Data model (src/types/events.ts, src/types/deck.ts) -/

inductive EventType where
  | draw | play_pokemon | evolve | attach_energy | play_trainer | use_ability
  | attack | knockout | prize_taken | switch | coin_flip | mulligan | win
deriving DecidableEq, Repr

inductive WinCondition where
  | prizes | deck_out | no_pokemon | concede
deriving DecidableEq, Repr

inductive CardLocation where
  | active | bench
deriving DecidableEq, Repr

inductive TrainerCategory where
  | supporter | item | tool | stadium
deriving DecidableEq, Repr

inductive CoinChoice where
  | first | second
deriving DecidableEq, Repr

structure EventDetails where
  pokemonName : Option String := none
  evolvedFrom : Option String := none
  location : Option CardLocation := none
  attackName : Option String := none
  attackingPokemon : Option String := none
  targetPokemon : Option String := none
  damage : Option Nat := none
  damageBreakdown : Option String := none
  trainerName : Option String := none
  trainerCategory : Option TrainerCategory := none
  cardCount : Option Nat := none
  cardNames : Option (List String) := none
  knockedOutPokemon : Option String := none
  prizesTaken : Option Nat := none
  headsCount : Option Nat := none
  tailsCount : Option Nat := none
  winCondition : Option WinCondition := none
deriving DecidableEq, Repr

structure GameEvent where
  id : String
  turn : Nat
  player : String
  type : EventType
  description : String
  details : EventDetails
  timestamp : Nat
deriving DecidableEq, Repr

structure Turn where
  number : Nat
  player : String
  events : List GameEvent
deriving DecidableEq, Repr

structure Player where
  username : String
  isFirst : Bool
deriving DecidableEq, Repr

structure TrainerPlayCount where
  name : String
  count : Nat
deriving DecidableEq, Repr

structure TrainersPlayed where
  supporters : List TrainerPlayCount
  items : List TrainerPlayCount
  tools : List TrainerPlayCount
  stadiums : List TrainerPlayCount
deriving DecidableEq, Repr

structure CoinFlipStats where
  heads : Nat
  tails : Nat
deriving DecidableEq, Repr

structure PlayerStatistics where
  totalDamageDealt : Nat
  totalCardsDrawn : Nat
  trainersPlayed : TrainersPlayed
  pokemonKnockedOut : Nat
  prizeCardsTaken : Nat
  coinFlips : CoinFlipStats
  turnsPlayed : Nat
deriving DecidableEq, Repr

/-- `Record<string, PlayerStatistics>` as an insertion-ordered association
list with unique keys. -/
abbrev MatchStatistics := List (String × PlayerStatistics)

structure MatchData where
  players : Player × Player
  coinFlipWinner : String
  coinFlipChoice : CoinChoice
  turns : List Turn
  events : List GameEvent
  winner : String
  winCondition : WinCondition
  statistics : MatchStatistics
  pokemonInMatch : List String
deriving DecidableEq, Repr

inductive ParseResult where
  | success (data : MatchData)
  | failure (error : String)
deriving DecidableEq, Repr

/-! ## JS-style string helpers -/

/-- JS truthiness of a `string | undefined` value: `undefined` and `""`
are falsy. -/
def strTruthy : Option String → Bool
  | none => false
  | some s => s ≠ ""

/-- First-match association-list lookup (JS object / `Map.get`). -/
def slookup {β : Type} (m : List (String × β)) (k : String) : Option β :=
  match m with
  | [] => none
  | (k', v) :: rest => if k' = k then some v else slookup rest k

/-- JS `\w` character class: `[A-Za-z0-9_]`. -/
def wordChar (c : Char) : Bool :=
  (('a' ≤ c ∧ c ≤ 'z') ∨ ('A' ≤ c ∧ c ≤ 'Z') ∨ ('0' ≤ c ∧ c ≤ '9') ∨ c = '_')

def digitChar (c : Char) : Bool := '0' ≤ c ∧ c ≤ '9'

def upperChar (c : Char) : Bool := 'A' ≤ c ∧ c ≤ 'Z'

def lowerChar (c : Char) : Bool := 'a' ≤ c ∧ c ≤ 'z'

/-- ASCII whitespace as recognised by both JS `\s`/`trim` and this model
(the logs are ASCII). -/
def wsChar (c : Char) : Bool :=
  c = ' ' ∨ c = '\t' ∨ c = '\n' ∨ c = '\r' ∨ c = '\x0b' ∨ c = '\x0c'

/-- Maximal nonempty prefix of characters satisfying `p` (greedy `p+`
before a delimiter outside the class). -/
def takeRun (p : Char → Bool) : List Char → Option (List Char × List Char)
  | [] => none
  | c :: cs =>
    if p c then
      match takeRun p cs with
      | some (run, rest) => some (c :: run, rest)
      | none => some ([c], cs)
    else none

/-- Expect a literal prefix, returning the remainder. -/
def dropLit : List Char → List Char → Option (List Char)
  | [], s => some s
  | _ :: _, [] => none
  | l :: ls, c :: cs => if c = l then dropLit ls cs else none

/-- Lazy one-or-more group `(X+?)` (with `X` given by `ok`) followed by a
continuation `stop`: tries the shortest group first, exactly like the
regex engine's backtracking. -/
def lazyPlus {α : Type} (ok : Char → Bool) (stop : List Char → Option α) :
    List Char → Option (List Char × α)
  | [] => none
  | c :: cs =>
    if ok c then
      match stop cs with
      | some a => some ([c], a)
      | none =>
        match lazyPlus ok stop cs with
        | some (g, a) => some (c :: g, a)
        | none => none
    else none

/-- Does `pre` occur as a prefix of `s`? -/
def isPrefixList : List Char → List Char → Bool
  | [], _ => true
  | _ :: _, [] => false
  | l :: ls, c :: cs => c = l ∧ isPrefixList ls cs

/-- Unanchored search: try `m` at every suffix, leftmost first (a regex
without `^`). -/
def searchFrom {α : Type} (m : List Char → Option α) : List Char → Option α
  | [] => m []
  | c :: cs =>
    match m (c :: cs) with
    | some a => some a
    | none => searchFrom m cs

/-- Substring containment (used for JS `String.includes`). -/
def containsSub (needle : List Char) (s : List Char) : Bool :=
  (searchFrom (fun t => if isPrefixList needle t then some () else none) s).isSome

/-- JS `trimEnd` (ASCII whitespace). -/
def trimEndList (s : List Char) : List Char :=
  (s.reverse.dropWhile wsChar).reverse

/-- JS `trim` (ASCII whitespace). -/
def trimList (s : List Char) : List Char :=
  (trimEndList s).dropWhile wsChar

def jsTrim (s : String) : String := String.mk (trimList s.data)

def jsTrimEnd (s : String) : String := String.mk (trimEndList s.data)

/-- JS `toLowerCase` for ASCII. -/
def lowerList (s : List Char) : List Char := s.map Char.toLower

/-- Split a list at every occurrence of `sep` (JS `String.split` with a
single-character separator). -/
def splitAtChar (sep : Char) : List Char → List (List Char)
  | [] => [[]]
  | c :: cs =>
    let rest := splitAtChar sep cs
    if c = sep then [] :: rest
    else
      match rest with
      | [] => [[c]]
      | r :: rs => (c :: r) :: rs

/-- `splitLogIntoLines` (src/parser/utils.ts): split on `'\n'`, `trimEnd`
each line. -/
def splitLogIntoLines (logText : String) : List String :=
  (splitAtChar '\n' logText.data).map (fun l => String.mk (trimEndList l))

/-- `parseLocation` (src/parser/utils.ts): lowercased text containing
`"active"` is the Active Spot, everything else the Bench. -/
def parseLocation (locationText : String) : CardLocation :=
  if containsSub "active".data (lowerList locationText.data) then .active else .bench

/-- `generateEventId` (src/parser/utils.ts): `event-${++eventCounter}`,
with the counter threaded explicitly. -/
def generateEventId (counter : Nat) : String × Nat :=
  ("event-" ++ toString (counter + 1), counter + 1)

/-- `resetEventCounter` (src/parser/utils.ts). -/
def resetEventCounter (_counter : Nat) : Nat := 0

end TcgLogs

namespace TcgLogs

/-! ## Regex pattern library (src/parser/patterns.ts)

Each JS regex is translated into a matching function on `List Char` that
returns the captures the parser consumes.  Greedy `\w+`/`\d+` before a
delimiter outside the class is a maximal run; lazy `(.+?)` is `lazyPlus`
(shortest extension first); `['’]` accepts both apostrophes. -/

/-- Run after the first occurrence of `needle` that matches `k` — scanning
suffixes leftmost-first, like an unanchored regex fragment. -/
def anyPos (m : List Char → Bool) : List Char → Bool
  | [] => m []
  | c :: cs => m (c :: cs) || anyPos m cs

/-- `.+X`: some occurrence of the fragment `m` with at least one character
before it. -/
def existsAt1 (m : List Char → Bool) : List Char → Bool
  | [] => false
  | _ :: cs => anyPos m cs

/-- `['’]s ` — possessive marker with either apostrophe, then a space. -/
def dropPossessive : List Char → Option (List Char)
  | c :: cs => if c = '\'' ∨ c = '’' then dropLit "s ".data cs else none
  | [] => none

def digitVal (c : Char) : Nat := c.toNat - '0'.toNat

def natOfDigits (ds : List Char) : Nat :=
  ds.foldl (fun n c => n * 10 + digitVal c) 0

/-- Greedy `(\d+)` then remainder. -/
def takeDigits (s : List Char) : Option (Nat × List Char) :=
  (takeRun digitChar s).map (fun (ds, r) => (natOfDigits ds, r))

/-- Greedy `(\w+)` then remainder. -/
def takeWordStr (s : List Char) : Option (String × List Char) :=
  (takeRun wordChar s).map (fun (w, r) => (String.mk w, r))

def isSuffixList (needle s : List Char) : Bool :=
  isPrefixList needle.reverse s.reverse

namespace Patterns

/-- `^(\w+) chose (heads|tails) for the opening coin flip` — only the
player capture is consumed by the parser. -/
def coinFlipChoice (line : List Char) : Option String := do
  let (w, r) ← takeWordStr line
  let r ← dropLit " chose ".data r
  let r ← (dropLit "heads".data r).orElse (fun _ => dropLit "tails".data r)
  let _ ← dropLit " for the opening coin flip".data r
  pure w

/-- `^(\w+) won the coin toss` -/
def coinFlipWinner (line : List Char) : Option String := do
  let (w, r) ← takeWordStr line
  let _ ← dropLit " won the coin toss".data r
  pure w

/-- `^(\w+) decided to go (first|second)` -/
def goFirst (line : List Char) : Option (String × CoinChoice) := do
  let (w, r) ← takeWordStr line
  let r ← dropLit " decided to go ".data r
  match dropLit "first".data r with
  | some _ => pure (w, CoinChoice.first)
  | none =>
    match dropLit "second".data r with
    | some _ => pure (w, CoinChoice.second)
    | none => none

/-- `^(\w+) drew (\d+) cards for the opening hand` -/
def openingHand (line : List Char) : Option (String × Nat) := do
  let (w, r) ← takeWordStr line
  let r ← dropLit " drew ".data r
  let (n, r) ← takeDigits r
  let _ ← dropLit " cards for the opening hand".data r
  pure (w, n)

/-- `^(\w+) took a mulligan` -/
def mulligan (line : List Char) : Option String := do
  let (w, r) ← takeWordStr line
  let _ ← dropLit " took a mulligan".data r
  pure w

/-- `^(\w+) drew (\d+) more cards? because (\w+) took at least 1 mulligan` -/
def mulliganDraw (line : List Char) : Option (String × Nat) := do
  let (w, r) ← takeWordStr line
  let r ← dropLit " drew ".data r
  let (n, r) ← takeDigits r
  let r ← dropLit " more card".data r
  let r ← (dropLit "s because ".data r).orElse (fun _ => dropLit " because ".data r)
  let (_, r) ← takeWordStr r
  let _ ← dropLit " took at least 1 mulligan".data r
  pure (w, n)

/-- `^(\w+) played ([A-Z][^.]+?) to the (Active Spot|Bench)` — returns
(player, pokemon, captured location text). -/
def playedPokemon (line : List Char) : Option (String × String × String) := do
  let (w, r) ← takeWordStr line
  let r ← dropLit " played ".data r
  match r with
  | [] => none
  | c :: cs =>
    if upperChar c then
      let stop := fun (t : List Char) =>
        match dropLit " to the Active Spot".data t with
        | some _ => some "Active Spot"
        | none =>
          match dropLit " to the Bench".data t with
          | some _ => some "Bench"
          | none => none
      match lazyPlus (fun ch => ch ≠ '.') stop cs with
      | some (g, loc) => some (w, String.mk (c :: g), loc)
      | none => none
    else none

/-- The optional tail `(?:(?: in the Active Spot| on the Bench)?\.?)?$`
shared by the evolve and energy-attachment patterns. -/
def locationTail (t : List Char) : Bool :=
  t = [] ∨ t = ".".data ∨ t = " in the Active Spot".data ∨
    t = " in the Active Spot.".data ∨ t = " on the Bench".data ∨
    t = " on the Bench.".data

/-- `^(\w+) evolved (.+?) to (.+?)(?:(?: in the Active Spot| on the Bench)?\.?)?$` -/
def evolved (line : List Char) : Option (String × String × String) := do
  let (w, r) ← takeWordStr line
  let r ← dropLit " evolved ".data r
  let stop2 := fun (t : List Char) => do
    let t ← dropLit " to ".data t
    lazyPlus (fun _ => true) (fun t2 => if locationTail t2 then some () else none) t
  match lazyPlus (fun _ => true) stop2 r with
  | some (g2, g3, ()) => some (w, String.mk g2, String.mk g3)
  | none => none

/-- `^(\w+)['’]s (.+?) is now in the Active Spot` -/
def switchedIn (line : List Char) : Option (String × String) := do
  let (w, r) ← takeWordStr line
  let r ← dropPossessive r
  let stop := fun (t : List Char) => dropLit " is now in the Active Spot".data t
  match lazyPlus (fun _ => true) stop r with
  | some (g, _) => some (w, String.mk g)
  | none => none

/-- `^(\w+) attached (.+?) to (.+?)(?: in the Active Spot| on the Bench)?\.?$` -/
def attachedEnergy (line : List Char) : Option (String × String × String) := do
  let (w, r) ← takeWordStr line
  let r ← dropLit " attached ".data r
  let stop2 := fun (t : List Char) => do
    let t ← dropLit " to ".data t
    lazyPlus (fun _ => true) (fun t2 => if locationTail t2 then some () else none) t
  match lazyPlus (fun _ => true) stop2 r with
  | some (g2, g3, ()) => some (w, String.mk g2, String.mk g3)
  | none => none

/-- `^(\w+) played (.+?)(?:\.|$)` -/
def playedTrainer (line : List Char) : Option (String × String) := do
  let (w, r) ← takeWordStr line
  let r ← dropLit " played ".data r
  let stop := fun (t : List Char) =>
    match t with
    | [] => some ()
    | c :: _ => if c = '.' then some () else none
  match lazyPlus (fun _ => true) stop r with
  | some (g, ()) => some (w, String.mk g)
  | none => none

/-- `^(\w+) played (.+?) to the Stadium spot` -/
def playedStadium (line : List Char) : Option (String × String) := do
  let (w, r) ← takeWordStr line
  let r ← dropLit " played ".data r
  let stop := fun (t : List Char) => dropLit " to the Stadium spot".data t
  match lazyPlus (fun _ => true) stop r with
  | some (g, _) => some (w, String.mk g)
  | none => none

/-- `^(\w+)['’]s (.+?) used (.+?)\.?$` -/
def usedAbility (line : List Char) : Option (String × String × String) := do
  let (w, r) ← takeWordStr line
  let r ← dropPossessive r
  let stop2 := fun (t : List Char) => do
    let t ← dropLit " used ".data t
    lazyPlus (fun _ => true)
      (fun t2 => if t2 = [] ∨ t2 = ".".data then some () else none) t
  match lazyPlus (fun _ => true) stop2 r with
  | some (g2, g3, ()) => some (w, String.mk g2, String.mk g3)
  | none => none

/-- `^(\w+)['’]s (.+?) used (.+?) on (\w+)['’]s (.+?) for (\d+) damage` -/
def attack (line : List Char) :
    Option (String × String × String × String × String × Nat) := do
  let (w, r) ← takeWordStr line
  let r ← dropPossessive r
  let stop2 := fun (t : List Char) => do
    let t ← dropLit " used ".data t
    lazyPlus (fun _ => true) (fun t2 => do
      let t2 ← dropLit " on ".data t2
      let (w4, t2) ← takeWordStr t2
      let t2 ← dropPossessive t2
      let inner ← lazyPlus (fun _ => true) (fun t3 => do
        let t3 ← dropLit " for ".data t3
        let (dmg, t3) ← takeDigits t3
        let _ ← dropLit " damage".data t3
        pure dmg) t2
      pure (w4, inner)) t
  match stop2 |> (fun f => lazyPlus (fun _ => true) (fun t => f t) r) with
  | some (g2, g3, w4, g5, dmg) => some (w, String.mk g2, String.mk g3, w4, String.mk g5, dmg)
  | none => none

/-- `^(\w+)['’]s (.+?) was Knocked Out` -/
def knockout (line : List Char) : Option (String × String) := do
  let (w, r) ← takeWordStr line
  let r ← dropPossessive r
  let stop := fun (t : List Char) => dropLit " was Knocked Out".data t
  match lazyPlus (fun _ => true) stop r with
  | some (g, _) => some (w, String.mk g)
  | none => none

/-- `^(\w+) took a Prize card` -/
def prizeTaken (line : List Char) : Option String := do
  let (w, r) ← takeWordStr line
  let _ ← dropLit " took a Prize card".data r
  pure w

/-- `flipped (\d+) coins?, and (\d+) landed on heads` — the one unanchored
pattern: tried at every position, leftmost first. -/
def coinFlip (line : List Char) : Option (Nat × Nat) :=
  searchFrom (fun t => do
    let t ← dropLit "flipped ".data t
    let (total, t) ← takeDigits t
    let t ← dropLit " coin".data t
    let t ← (dropLit "s, and ".data t).orElse (fun _ => dropLit ", and ".data t)
    let (heads, t) ← takeDigits t
    let _ ← dropLit " landed on heads".data t
    pure (total, heads)) line

/-- `^Opponent['’]s deck ran out of cards\. (\w+) wins` -/
def deckOut (line : List Char) : Option String := do
  let r ← dropLit "Opponent".data line
  let r ← dropPossessive r
  let r ← dropLit "deck ran out of cards. ".data r
  let (w, r) ← takeWordStr r
  let _ ← dropLit " wins".data r
  pure w

/-- `^(\w+) took all Prize cards` -/
def prizeWin (line : List Char) : Option String := do
  let (w, r) ← takeWordStr line
  let _ ← dropLit " took all Prize cards".data r
  pure w

/-- `^(\w+) conceded` — defined in patterns.ts; no parser code path
consults it. -/
def concede (line : List Char) : Option String := do
  let (w, r) ← takeWordStr line
  let _ ← dropLit " conceded".data r
  pure w

/-- `^(\w+) drew ([A-Z][^.]+)\.?$` — greedy capture: the whole rest of the
line minus an optional final period; it must be period-free, start with an
uppercase letter and (because of `[A-Z][^.]+`) have length at least 2. -/
def drewCard (line : List Char) : Option (String × String) := do
  let (w, r) ← takeWordStr line
  let r ← dropLit " drew ".data r
  let core := if r.getLast? = some '.' then r.dropLast else r
  match core with
  | c :: _ :: _ =>
    if upperChar c ∧ ¬ core.contains '.' then some (w, String.mk core) else none
  | _ => none

/-- `^(\w+) drew (\d+) cards` -/
def drewCards (line : List Char) : Option (String × Nat) := do
  let (w, r) ← takeWordStr line
  let r ← dropLit " drew ".data r
  let (n, r) ← takeDigits r
  let _ ← dropLit " cards".data r
  pure (w, n)

/-- `^[ ]{3}• (.+)$` — bullet line carrying card names. -/
def cardList (line : List Char) : Option String := do
  let r ← dropLit "   • ".data line
  match r with
  | [] => none
  | _ => some (String.mk r)

end Patterns

/-! ## Skip patterns (src/parser/patterns.ts `SKIP_PATTERNS`) -/

def skipDrawnCards (s : List Char) : Bool :=
  (do
    let r ← dropLit "- ".data s
    let (_, r) ← takeDigits r
    dropLit " drawn cards".data r).isSome

def skipMulliganReveal (s : List Char) : Bool :=
  isPrefixList "- Cards revealed from Mulligan".data s

def skipDrewACard (s : List Char) : Bool :=
  isPrefixList "- ".data s ∧ isSuffixList " drew a card.".data s ∧
    2 + 1 + (" drew a card.".data).length ≤ s.length

def skipDrewAndPlayed (s : List Char) : Bool :=
  match dropLit "- ".data s with
  | none => false
  | some r =>
    existsAt1 (fun t =>
      match dropLit " drew ".data t with
      | none => false
      | some u => existsAt1 (fun v => isPrefixList " and played".data v) u) r

def skipCardAdded (s : List Char) : Bool :=
  match dropLit "A card was added to ".data s with
  | none => false
  | some r =>
    existsAt1 (fun t =>
      match t with
      | c :: cs => (c = '\'' ∨ c = '’') ∧ isPrefixList "s hand".data cs
      | [] => false) r

def skipShuffled (s : List Char) : Bool :=
  match dropLit "- ".data s with
  | none => false
  | some r => existsAt1 (fun t => isPrefixList " shuffled".data t) r

def skipPutCards (s : List Char) : Bool :=
  match dropLit "- ".data s with
  | none => false
  | some r =>
    existsAt1 (fun t =>
      (do
        let u ← dropLit " put ".data t
        let (_, u) ← takeDigits u
        dropLit " cards".data u).isSome) r

def skipMovedCards (s : List Char) : Bool :=
  match dropLit "- ".data s with
  | none => false
  | some r =>
    existsAt1 (fun t =>
      match dropLit " moved ".data t with
      | none => false
      | some u => existsAt1 (fun v => isPrefixList " cards to".data v) u) r

def skipDiscarded (s : List Char) : Bool :=
  match dropLit "- ".data s with
  | none => false
  | some r => existsAt1 (fun t => isPrefixList " discarded".data t) r

def skipCardsWereDiscarded (s : List Char) : Bool :=
  (do
    let r ← dropLit "- ".data s
    let (_, r) ← takeDigits r
    dropLit " cards were discarded".data r).isSome

def skipBullet (s : List Char) : Bool := isPrefixList "   •".data s

def skipDamageBreakdown (s : List Char) : Bool :=
  isPrefixList "Damage breakdown:".data s ∨ isPrefixList "- Damage breakdown:".data s

def skipBlank (s : List Char) : Bool := s.all wsChar

/-- `shouldSkipLine` (src/parser/utils.ts): any of the `SKIP_PATTERNS`
matches. -/
def shouldSkipLine (line : String) : Bool :=
  let s := line.data
  skipDrawnCards s || skipMulliganReveal s || skipDrewACard s ||
  skipDrewAndPlayed s || skipCardAdded s || skipShuffled s ||
  skipPutCards s || skipMovedCards s || skipDiscarded s ||
  skipCardsWereDiscarded s || skipBullet s || skipDamageBreakdown s ||
  skipBlank s

/-- `isTurnStart` (src/parser/utils.ts): exact string equality. -/
def isTurnStart (line : String) : Bool := line = "[playerName]'s Turn"

/-- `isSetupHeader` (src/parser/utils.ts). -/
def isSetupHeader (line : String) : Bool := line = "Setup"

end TcgLogs

namespace TcgLogs

/-! ## Trainer categorisation (src/parser/trainerCategories.ts) -/

set_option maxHeartbeats 1000000 in
def TRAINER_CATEGORIES : List (String × TrainerCategory) := [
  ("Arven", .supporter), ("Hilda", .supporter), ("Iono", .supporter),
  ("Boss's Orders", .supporter), ("Professor's Research", .supporter),
  ("Lillie's Determination", .supporter), ("Dawn", .supporter),
  ("Xerosic's Machinations", .supporter), ("Cynthia", .supporter),
  ("Marnie", .supporter), ("Professor Sada's Vitality", .supporter),
  ("Professor Turo's Scenario", .supporter), ("Jacq", .supporter),
  ("Judge", .supporter), ("Penny", .supporter), ("Tulip", .supporter),
  ("Worker", .supporter),
  ("Nest Ball", .item), ("Ultra Ball", .item), ("Rare Candy", .item),
  ("Counter Catcher", .item), ("Buddy-Buddy Poffin", .item),
  ("Precious Trolley", .item), ("Redeemable Ticket", .item),
  ("Sacred Ash", .item), ("Switch", .item), ("Escape Rope", .item),
  ("Super Rod", .item), ("Level Ball", .item), ("Quick Ball", .item),
  ("Great Ball", .item), ("Pokégear 3.0", .item), ("Energy Search", .item),
  ("Energy Retrieval", .item), ("Earthen Vessel", .item),
  ("Battle VIP Pass", .item), ("Capturing Aroma", .item), ("Pal Pad", .item),
  ("Hisuian Heavy Ball", .item), ("Lost Vacuum", .item),
  ("Canceling Cologne", .item), ("Defiance Band", .item),
  ("Choice Belt", .item), ("Exp. Share", .item), ("Forest Seal Stone", .item),
  ("Technical Machine: Evolution", .item), ("Technical Machine: Devolution", .item),
  ("Prime Catcher", .item), ("Night Stretcher", .item),
  ("Pokémon Catcher", .item), ("Max Potion", .item), ("Potion", .item),
  ("Super Potion", .item),
  ("Gravity Gemstone", .tool), ("Air Balloon", .tool),
  ("Cape of Toughness", .tool), ("Big Charm", .tool), ("Rescue Scarf", .tool),
  ("Tool Jammer", .tool), ("Tool Scrapper", .item), ("Hero's Cape", .tool),
  ("Bravery Charm", .tool), ("Rocky Helmet", .tool), ("Leftovers", .tool),
  ("Artazon", .stadium), ("Surfing Beach", .stadium),
  ("Path to the Peak", .stadium), ("Temple of Sinnoh", .stadium),
  ("Collapsed Stadium", .stadium), ("Beach Court", .stadium),
  ("Magenta Plaza", .stadium), ("Mesagoza", .stadium), ("Lost City", .stadium),
  ("Tower of Waters", .stadium), ("Tower of Darkness", .stadium),
  ("Training Court", .stadium), ("Jubilife Village", .stadium),
  ("Pokémon League Headquarters", .stadium), ("Iono's Voltorb", .stadium)]

/-- `TOOL_PATTERNS`: case-insensitive suffix tests on the lowercased name. -/
def TOOL_SUFFIXES : List String :=
  ["gemstone", "balloon", "charm", "cape", "scarf", "belt", "helmet", "stone"]

/-- `ITEM_PATTERNS` minus the one exact-match pattern `/^switch$/i`. -/
def ITEM_SUFFIXES : List String :=
  ["ball", "catcher", "rope", "rod", "ash", "ticket", "trolley", "poffin", "candy"]

/-- `[A-Z][a-z]+` — one capitalised word; returns the remainder. -/
def nameWord : List Char → Option (List Char)
  | c :: cs => if upperChar c then (takeRun lowerChar cs).map (·.2) else none
  | [] => none

/-- `(\s+[A-Z][a-z]+)*$` — the remaining words of the supporter-name
pattern, with explicit fuel (each step consumes at least two characters). -/
def restNameWords : Nat → List Char → Bool
  | _, [] => true
  | 0, _ => false
  | fuel + 1, s =>
    match takeRun wsChar s with
    | none => false
    | some (_, r) =>
      match nameWord r with
      | none => false
      | some r2 => restNameWords fuel r2

/-- `/^[A-Z][a-z]+('s)?(\s+[A-Z][a-z]+)*$/` — "looks like a person's
name", tested on the original (non-lowercased) trainer name. -/
def supporterNameTest (s : List Char) : Bool :=
  match nameWord s with
  | none => false
  | some rest =>
    let rest :=
      match dropLit "'s".data rest with
      | some r => r
      | none => rest
    restNameWords rest.length rest

/-- `getTrainerCategory` (src/parser/trainerCategories.ts): known mapping
first, then tool-suffix, item-pattern, person-name inference, finally the
`item` default. -/
def getTrainerCategory (trainerName : String) : TrainerCategory :=
  match slookup TRAINER_CATEGORIES trainerName with
  | some c => c
  | none =>
    let normalizedName := lowerList trainerName.data
    if TOOL_SUFFIXES.any (fun suf => isSuffixList suf.data normalizedName) then .tool
    else if ITEM_SUFFIXES.any (fun suf => isSuffixList suf.data normalizedName)
        ∨ normalizedName = "switch".data then .item
    else if supporterNameTest trainerName.data then .supporter
    else .item

/-- `isKnownTrainer` (src/parser/trainerCategories.ts). -/
def isKnownTrainer (trainerName : String) : Bool :=
  (slookup TRAINER_CATEGORIES trainerName).isSome

/-! ## Setup-phase parser (src/parser/setupParser.ts) -/

structure SetupResult where
  players : Player × Player
  coinFlipWinner : String
  coinFlipChoice : CoinChoice
  events : List GameEvent
  pokemonInMatch : List String
  setupEndIndex : Nat
deriving DecidableEq, Repr

inductive SetupParseResult where
  | ok (r : SetupResult)
  | error (e : String)
deriving DecidableEq, Repr

def isSetupError : SetupParseResult → Bool
  | .error _ => true
  | .ok _ => false

/-- Mutable locals of `parseSetup`'s scan loop. -/
structure SetupState where
  player1 : Option String := none
  player2 : Option String := none
  coinFlipWinner : Option String := none
  coinFlipChoice : Option CoinChoice := none
  whoGoesFirst : Option String := none
  events : List GameEvent := []
  pokemonInMatch : List String := []
  timestamp : Nat := 0
  setupEndIndex : Nat := 0
  inSetup : Bool := false
  counter : Nat
deriving Repr

/-- setupParser.ts `createDrawEvent`. -/
def setupDrawEvent (player : String) (cardCount : Nat) (turn : Nat)
    (timestamp : Nat) (counter : Nat) : GameEvent × Nat :=
  let (id, counter) := generateEventId counter
  ({ id, turn, player, type := .draw,
     description := player ++ " drew " ++ toString cardCount ++ " card" ++
       (if cardCount ≠ 1 then "s" else ""),
     details := { cardCount := some cardCount },
     timestamp }, counter)

/-- setupParser.ts `createMulliganEvent`. -/
def setupMulliganEvent (player : String) (turn : Nat) (timestamp : Nat)
    (counter : Nat) : GameEvent × Nat :=
  let (id, counter) := generateEventId counter
  ({ id, turn, player, type := .mulligan,
     description := player ++ " took a mulligan",
     details := {}, timestamp }, counter)

/-- setupParser.ts `createPlayPokemonEvent`. -/
def setupPlayPokemonEvent (player : String) (pokemonName : String)
    (location : CardLocation) (turn : Nat) (timestamp : Nat) (counter : Nat) :
    GameEvent × Nat :=
  let (id, counter) := generateEventId counter
  let locationText := if location = .active then "Active Spot" else "Bench"
  ({ id, turn, player, type := .play_pokemon,
     description := player ++ " played " ++ pokemonName ++ " to the " ++ locationText,
     details := { pokemonName := some pokemonName, location := some location },
     timestamp }, counter)

/-- The first-seen-wins player-slot assignment repeated at each setup
pattern: `if (!player1) player1 = name; else if (name !== player1 &&
!player2) player2 = name`. -/
def assignPlayer (st : SetupState) (name : String) : SetupState :=
  match st.player1 with
  | none => { st with player1 := some name }
  | some p1 =>
    if name ≠ p1 ∧ st.player2 = none then { st with player2 := some name } else st

/-- One iteration of `parseSetup`'s loop over a non-marker line. -/
def setupLine (st : SetupState) (line : String) : SetupState :=
  if isSetupHeader line then { st with inSetup := true }
  else if ¬ st.inSetup then st
  else
    match Patterns.coinFlipChoice line.data with
    | some name => assignPlayer st name
    | none =>
    match Patterns.coinFlipWinner line.data with
    | some name => assignPlayer { st with coinFlipWinner := some name } name
    | none =>
    match Patterns.goFirst line.data with
    | some (name, choice) =>
      assignPlayer { st with whoGoesFirst := some name, coinFlipChoice := some choice } name
    | none =>
    match Patterns.openingHand line.data with
    | some (name, cardCount) =>
      let st := assignPlayer st name
      let (ev, counter) := setupDrawEvent name cardCount 0 st.timestamp st.counter
      { st with events := st.events ++ [ev], timestamp := st.timestamp + 1, counter }
    | none =>
    match Patterns.mulligan line.data with
    | some name =>
      let (ev, counter) := setupMulliganEvent name 0 st.timestamp st.counter
      { st with events := st.events ++ [ev], timestamp := st.timestamp + 1, counter }
    | none =>
    match Patterns.mulliganDraw line.data with
    | some (name, cardCount) =>
      let (ev, counter) := setupDrawEvent name cardCount 0 st.timestamp st.counter
      { st with events := st.events ++ [ev], timestamp := st.timestamp + 1, counter }
    | none =>
    match Patterns.playedPokemon line.data with
    | some (name, pokemonName, locText) =>
      let location := parseLocation locText
      let st :=
        if st.pokemonInMatch.contains pokemonName then st
        else { st with pokemonInMatch := st.pokemonInMatch ++ [pokemonName] }
      let (ev, counter) :=
        setupPlayPokemonEvent name pokemonName location 0 st.timestamp st.counter
      { st with events := st.events ++ [ev], timestamp := st.timestamp + 1, counter }
    | none => st

/-- `parseSetup`'s scan: runs until the first turn marker (recording its
index and stopping, like the `break`) or the end of the input. -/
def setupScan (st : SetupState) (idx : Nat) : List String → SetupState
  | [] => st
  | line :: rest =>
    if isTurnStart line then { st with setupEndIndex := idx }
    else setupScan (setupLine st line) (idx + 1) rest

/-- `parseSetup` (src/parser/setupParser.ts). -/
def parseSetup (lines : List String) (counter : Nat) : SetupParseResult × Nat :=
  let st := setupScan { counter } 0 lines
  match st.player1, st.player2 with
  | some player1, some player2 =>
    match st.coinFlipWinner with
    | none => (.error "Invalid log format: missing coin flip information", st.counter)
    | some coinFlipWinner =>
      let coinFlipChoice := st.coinFlipChoice.getD .first
      let firstPlayer := st.whoGoesFirst.getD coinFlipWinner
      let isPlayer1First := firstPlayer = player1
      (.ok {
        players := ({ username := player1, isFirst := isPlayer1First },
                    { username := player2, isFirst := ¬ isPlayer1First }),
        coinFlipWinner, coinFlipChoice,
        events := st.events,
        pokemonInMatch := st.pokemonInMatch,
        setupEndIndex := st.setupEndIndex }, st.counter)
  | _, _ => (.error "Could not identify players in the log", st.counter)

end TcgLogs

namespace TcgLogs

/-! ## Turn/event parser (src/parser/eventParser.ts) -/

structure TurnParseResult where
  turns : List Turn
  events : List GameEvent
  pokemonInMatch : List String
  winner : Option String
  winCondition : Option WinCondition
  counter : Nat
deriving DecidableEq, Repr

def addPokemonIfNew (list : List String) (pokemon : String) : List String :=
  if list.contains pokemon then list else list ++ [pokemon]

def createDrawEvent (player : String) (cardCount : Nat)
    (cardNames : Option (List String)) (turn timestamp counter : Nat) :
    GameEvent × Nat :=
  let (id, counter) := generateEventId counter
  ({ id, turn, player, type := .draw,
     description := player ++ " drew " ++ toString cardCount ++ " card" ++
       (if cardCount ≠ 1 then "s" else ""),
     details := { cardCount := some cardCount, cardNames := cardNames },
     timestamp }, counter)

def createPlayPokemonEvent (player pokemonName : String)
    (location : CardLocation) (turn timestamp counter : Nat) : GameEvent × Nat :=
  let (id, counter) := generateEventId counter
  let locationText := if location = .active then "Active Spot" else "Bench"
  ({ id, turn, player, type := .play_pokemon,
     description := player ++ " played " ++ pokemonName ++ " to the " ++ locationText,
     details := { pokemonName := some pokemonName, location := some location },
     timestamp }, counter)

def createEvolveEvent (player fromPokemon toPokemon : String)
    (turn timestamp counter : Nat) : GameEvent × Nat :=
  let (id, counter) := generateEventId counter
  ({ id, turn, player, type := .evolve,
     description := player ++ " evolved " ++ fromPokemon ++ " to " ++ toPokemon,
     details := { pokemonName := some toPokemon, evolvedFrom := some fromPokemon },
     timestamp }, counter)

def createEnergyEvent (player energyName targetPokemon : String)
    (turn timestamp counter : Nat) : GameEvent × Nat :=
  let (id, counter) := generateEventId counter
  ({ id, turn, player, type := .attach_energy,
     description := player ++ " attached " ++ energyName ++ " to " ++ targetPokemon,
     details := { pokemonName := some targetPokemon },
     timestamp }, counter)

def createTrainerEvent (player trainerName : String)
    (category : TrainerCategory) (turn timestamp counter : Nat) : GameEvent × Nat :=
  let (id, counter) := generateEventId counter
  ({ id, turn, player, type := .play_trainer,
     description := player ++ " played " ++ trainerName,
     details := { trainerName := some trainerName, trainerCategory := some category },
     timestamp }, counter)

def createAbilityEvent (player pokemonName abilityName : String)
    (turn timestamp counter : Nat) : GameEvent × Nat :=
  let (id, counter) := generateEventId counter
  ({ id, turn, player, type := .use_ability,
     description := player ++ "'s " ++ pokemonName ++ " used " ++ abilityName,
     details := { pokemonName := some pokemonName, attackName := some abilityName },
     timestamp }, counter)

def createAttackEvent (player attackingPokemon attackName targetPokemon : String)
    (damage : Nat) (damageBreakdown : Option String)
    (turn timestamp counter : Nat) : GameEvent × Nat :=
  let (id, counter) := generateEventId counter
  ({ id, turn, player, type := .attack,
     description := player ++ "'s " ++ attackingPokemon ++ " used " ++ attackName ++
       " for " ++ toString damage ++ " damage",
     details := { attackingPokemon := some attackingPokemon,
                  attackName := some attackName,
                  targetPokemon := some targetPokemon,
                  damage := some damage,
                  damageBreakdown := damageBreakdown },
     timestamp }, counter)

def createKnockoutEvent (causingPlayer knockedOutPokemon : String)
    (turn timestamp counter : Nat) : GameEvent × Nat :=
  let (id, counter) := generateEventId counter
  ({ id, turn, player := causingPlayer, type := .knockout,
     description := knockedOutPokemon ++ " was Knocked Out",
     details := { knockedOutPokemon := some knockedOutPokemon },
     timestamp }, counter)

def createPrizeTakenEvent (player : String) (turn timestamp counter : Nat) :
    GameEvent × Nat :=
  let (id, counter) := generateEventId counter
  ({ id, turn, player, type := .prize_taken,
     description := player ++ " took a Prize card",
     details := { prizesTaken := some 1 },
     timestamp }, counter)

def createSwitchEvent (player pokemonName : String)
    (turn timestamp counter : Nat) : GameEvent × Nat :=
  let (id, counter) := generateEventId counter
  ({ id, turn, player, type := .switch,
     description := player ++ "'s " ++ pokemonName ++ " is now in the Active Spot",
     details := { pokemonName := some pokemonName, location := some .active },
     timestamp }, counter)

/-- `createCoinFlipEvent` — `tailsCount = total - heads` is ℕ-truncated
here; a log line claiming more heads than coins would make it negative in
JS, which no recognised log shape produces. -/
def createCoinFlipEvent (player : String) (headsCount tailsCount : Nat)
    (turn timestamp counter : Nat) : GameEvent × Nat :=
  let (id, counter) := generateEventId counter
  let total := headsCount + tailsCount
  ({ id, turn, player, type := .coin_flip,
     description := "Flipped " ++ toString total ++ " coin" ++
       (if total ≠ 1 then "s" else "") ++ ", " ++ toString headsCount ++ " heads",
     details := { headsCount := some headsCount, tailsCount := some tailsCount },
     timestamp }, counter)

def winConditionText : WinCondition → String
  | .prizes => "took all Prize cards"
  | .deck_out => "opponent's deck ran out"
  | .no_pokemon => "opponent has no Pokemon"
  | .concede => "opponent conceded"

def createWinEvent (winner : String) (winCondition : WinCondition)
    (turn timestamp counter : Nat) : GameEvent × Nat :=
  let (id, counter) := generateEventId counter
  ({ id, turn, player := winner, type := .win,
     description := winner ++ " wins - " ++ winConditionText winCondition,
     details := { winCondition := some winCondition },
     timestamp }, counter)

/-- `lookAheadForCardNames`: scan up to four following lines for bullet
card lists; stop at the first non-bullet, non-skip, non-blank line. -/
def lookAheadScan : List String → List String
  | [] => []
  | l :: ls =>
    match Patterns.cardList l.data with
    | some captured =>
      ((splitAtChar ',' captured.data).map fun n => jsTrim (String.mk n)) ++
        lookAheadScan ls
    | none =>
      if ¬ shouldSkipLine l ∧ jsTrim l ≠ "" then []
      else lookAheadScan ls

def lookAheadForCardNames (rest : List String) : Option (List String) :=
  let cardNames := lookAheadScan (rest.take 4)
  if cardNames.isEmpty then none else some cardNames

/-- JS `String.replace` with a plain-string pattern: replace the first
occurrence only. -/
def replaceFirstList (needle : List Char) : List Char → List Char
  | [] => []
  | c :: cs =>
    if isPrefixList needle (c :: cs) then (c :: cs).drop needle.length
    else c :: replaceFirstList needle cs

/-- The result of classifying one in-turn line: at most one event plus the
side effects of the matching branch. -/
structure LineOutcome where
  event : Option GameEvent
  pokemonInMatch : List String
  lastDamageBreakdown : Option String
  winner : Option String
  winCondition : Option WinCondition
  counter : Nat
deriving Repr

/-- The classifier cascade of `parseTurns`' loop body, in source order:
win conditions, attack, knockout, prize, switch, ability, evolve, stadium,
pokemon-play, trainer-play, energy, draw-single, draw-multi, coin-flip;
first structural match wins. -/
def tryParseEvent (line : String) (rest : List String)
    (ordered : String × String) (currentPlayer : String)
    (lastDamageBreakdown : Option String) (pokemonInMatch : List String)
    (turnNumber timestamp counter : Nat)
    (winner : Option String) (winCondition : Option WinCondition) :
    LineOutcome :=
  let keep : Option GameEvent → List String → Option String → Option String →
      Option WinCondition → Nat → LineOutcome :=
    fun ev pokes bd w wc c =>
      { event := ev, pokemonInMatch := pokes, lastDamageBreakdown := bd,
        winner := w, winCondition := wc, counter := c }
  match Patterns.deckOut line.data with
  | some w =>
    let (ev, c) := createWinEvent w .deck_out turnNumber timestamp counter
    keep (some ev) pokemonInMatch lastDamageBreakdown (some w) (some .deck_out) c
  | none =>
  match Patterns.prizeWin line.data with
  | some w =>
    let (ev, c) := createWinEvent w .prizes turnNumber timestamp counter
    keep (some ev) pokemonInMatch lastDamageBreakdown (some w) (some .prizes) c
  | none =>
  match Patterns.attack line.data with
  | some (attacker, attackingPokemon, attackName, _targetPlayer, targetPokemon, damage) =>
    let pokes := addPokemonIfNew (addPokemonIfNew pokemonInMatch attackingPokemon) targetPokemon
    let (ev, c) := createAttackEvent attacker attackingPokemon attackName
      targetPokemon damage lastDamageBreakdown turnNumber timestamp counter
    keep (some ev) pokes none winner winCondition c
  | none =>
  match Patterns.knockout line.data with
  | some (knockedOutPlayer, knockedOutPokemon) =>
    let found :=
      if ordered.1 ≠ knockedOutPlayer then some ordered.1
      else if ordered.2 ≠ knockedOutPlayer then some ordered.2
      else none
    let causingPlayer :=
      match found with
      | some p => if p = "" then currentPlayer else p
      | none => currentPlayer
    let (ev, c) := createKnockoutEvent causingPlayer knockedOutPokemon
      turnNumber timestamp counter
    keep (some ev) pokemonInMatch lastDamageBreakdown winner winCondition c
  | none =>
  match Patterns.prizeTaken line.data with
  | some prizeTaker =>
    let (ev, c) := createPrizeTakenEvent prizeTaker turnNumber timestamp counter
    keep (some ev) pokemonInMatch lastDamageBreakdown winner winCondition c
  | none =>
  match Patterns.switchedIn line.data with
  | some (switchPlayer, switchedPokemon) =>
    let pokes := addPokemonIfNew pokemonInMatch switchedPokemon
    let (ev, c) := createSwitchEvent switchPlayer switchedPokemon
      turnNumber timestamp counter
    keep (some ev) pokes lastDamageBreakdown winner winCondition c
  | none =>
  match Patterns.usedAbility line.data with
  | some (abilityPlayer, abilityPokemon, abilityName) =>
    let pokes := addPokemonIfNew pokemonInMatch abilityPokemon
    let (ev, c) := createAbilityEvent abilityPlayer abilityPokemon abilityName
      turnNumber timestamp counter
    keep (some ev) pokes lastDamageBreakdown winner winCondition c
  | none =>
  match Patterns.evolved line.data with
  | some (evolvePlayer, fromPokemon, toPokemon) =>
    let pokes := addPokemonIfNew (addPokemonIfNew pokemonInMatch fromPokemon) toPokemon
    let (ev, c) := createEvolveEvent evolvePlayer fromPokemon toPokemon
      turnNumber timestamp counter
    keep (some ev) pokes lastDamageBreakdown winner winCondition c
  | none =>
  match Patterns.playedStadium line.data with
  | some (stadiumPlayer, stadiumName) =>
    let (ev, c) := createTrainerEvent stadiumPlayer stadiumName .stadium
      turnNumber timestamp counter
    keep (some ev) pokemonInMatch lastDamageBreakdown winner winCondition c
  | none =>
  match Patterns.playedPokemon line.data with
  | some (playPlayer, pokemonName, locText) =>
    let location := parseLocation locText
    let pokes := addPokemonIfNew pokemonInMatch pokemonName
    let (ev, c) := createPlayPokemonEvent playPlayer pokemonName location
      turnNumber timestamp counter
    keep (some ev) pokes lastDamageBreakdown winner winCondition c
  | none =>
  match Patterns.playedTrainer line.data with
  | some (trainerPlayer, trainerNameRaw) =>
    let trainerName := jsTrim trainerNameRaw
    let category := getTrainerCategory trainerName
    let (ev, c) := createTrainerEvent trainerPlayer trainerName category
      turnNumber timestamp counter
    keep (some ev) pokemonInMatch lastDamageBreakdown winner winCondition c
  | none =>
  match Patterns.attachedEnergy line.data with
  | some (energyPlayer, energyName, targetPokemon) =>
    let toolCategory := getTrainerCategory energyName
    if toolCategory = .tool then
      let (ev, c) := createTrainerEvent energyPlayer energyName .tool
        turnNumber timestamp counter
      keep (some ev) pokemonInMatch lastDamageBreakdown winner winCondition c
    else
      let pokes := addPokemonIfNew pokemonInMatch targetPokemon
      let (ev, c) := createEnergyEvent energyPlayer energyName targetPokemon
        turnNumber timestamp counter
      keep (some ev) pokes lastDamageBreakdown winner winCondition c
  | none =>
  match Patterns.drewCard line.data with
  | some (drawPlayer, cardName) =>
    if ¬ containsSub " and played".data cardName.data then
      let (ev, c) := createDrawEvent drawPlayer 1 (some [cardName])
        turnNumber timestamp counter
      keep (some ev) pokemonInMatch lastDamageBreakdown winner winCondition c
    else
      -- the matched draw is suppressed; the remaining patterns still run
      match Patterns.drewCards line.data with
      | some (drawPlayer2, cardCount) =>
        let cardNames := lookAheadForCardNames rest
        let (ev, c) := createDrawEvent drawPlayer2 cardCount cardNames
          turnNumber timestamp counter
        keep (some ev) pokemonInMatch lastDamageBreakdown winner winCondition c
      | none =>
      match Patterns.coinFlip line.data with
      | some (totalFlips, headsCount) =>
        let (ev, c) := createCoinFlipEvent currentPlayer headsCount
          (totalFlips - headsCount) turnNumber timestamp counter
        keep (some ev) pokemonInMatch lastDamageBreakdown winner winCondition c
      | none => keep none pokemonInMatch lastDamageBreakdown winner winCondition counter
  | none =>
  match Patterns.drewCards line.data with
  | some (drawPlayer, cardCount) =>
    let cardNames := lookAheadForCardNames rest
    let (ev, c) := createDrawEvent drawPlayer cardCount cardNames
      turnNumber timestamp counter
    keep (some ev) pokemonInMatch lastDamageBreakdown winner winCondition c
  | none =>
  match Patterns.coinFlip line.data with
  | some (totalFlips, headsCount) =>
    let (ev, c) := createCoinFlipEvent currentPlayer headsCount
      (totalFlips - headsCount) turnNumber timestamp counter
    keep (some ev) pokemonInMatch lastDamageBreakdown winner winCondition c
  | none => keep none pokemonInMatch lastDamageBreakdown winner winCondition counter

/-- Mutable locals of `parseTurns`. -/
structure TurnState where
  turns : List Turn := []
  allEvents : List GameEvent := []
  pokemonInMatch : List String := []
  winner : Option String := none
  winCondition : Option WinCondition := none
  currentTurn : Option Turn := none
  turnNumber : Nat := 0
  timestamp : Nat := 0
  turnPlayerIndex : Nat := 0
  currentPlayer : String
  lastDamageBreakdown : Option String := none
  counter : Nat
deriving Repr

/-- Push a completed turn if it has events (`parseTurns` drops empty
turns). -/
def flushTurn (turns : List Turn) : Option Turn → List Turn
  | some t => if 0 < t.events.length then turns ++ [t] else turns
  | none => turns

/-- The loop of `parseTurns`. -/
def turnScan (ordered : String × String) : List String → TurnState → TurnState
  | [], st => st
  | line :: rest, st =>
    if isTurnStart line then
      let turnNumber := st.turnNumber + 1
      let currentPlayer := if st.turnPlayerIndex % 2 = 0 then ordered.1 else ordered.2
      turnScan ordered rest { st with
        turns := flushTurn st.turns st.currentTurn,
        turnNumber, currentPlayer,
        turnPlayerIndex := st.turnPlayerIndex + 1,
        currentTurn := some { number := turnNumber, player := currentPlayer, events := [] },
        timestamp := 0 }
    else if shouldSkipLine line then
      let captured := jsTrim (String.mk (replaceFirstList "   • ".data line.data))
      let st :=
        if (isPrefixList "- Damage breakdown:".data line.data ∨
            isPrefixList "   •".data line.data) ∧
            containsSub "damage".data line.data then
          { st with lastDamageBreakdown := some captured }
        else st
      turnScan ordered rest st
    else
      match st.currentTurn with
      | none => turnScan ordered rest st
      | some ct =>
        let o := tryParseEvent line rest ordered st.currentPlayer
          st.lastDamageBreakdown st.pokemonInMatch st.turnNumber st.timestamp
          st.counter st.winner st.winCondition
        match o.event with
        | some ev =>
          turnScan ordered rest { st with
            pokemonInMatch := o.pokemonInMatch,
            lastDamageBreakdown := o.lastDamageBreakdown,
            winner := o.winner, winCondition := o.winCondition,
            counter := o.counter,
            currentTurn := some { ct with events := ct.events ++ [ev] },
            allEvents := st.allEvents ++ [ev],
            timestamp := st.timestamp + 1 }
        | none =>
          turnScan ordered rest { st with
            pokemonInMatch := o.pokemonInMatch,
            lastDamageBreakdown := o.lastDamageBreakdown,
            winner := o.winner, winCondition := o.winCondition,
            counter := o.counter }

/-- `parseTurns` (src/parser/eventParser.ts). -/
def parseTurns (lines : List String) (players : Player × Player)
    (counter : Nat) : TurnParseResult :=
  let firstPlayer :=
    if players.1.isFirst then players.1
    else if players.2.isFirst then players.2
    else players.1
  let secondPlayer :=
    if players.1.isFirst = false then players.1
    else if players.2.isFirst = false then players.2
    else players.2
  let ordered := (firstPlayer.username, secondPlayer.username)
  let st := turnScan ordered lines { currentPlayer := ordered.1, counter }
  { turns := flushTurn st.turns st.currentTurn,
    events := st.allEvents,
    pokemonInMatch := st.pokemonInMatch,
    winner := st.winner,
    winCondition := st.winCondition,
    counter := st.counter }

end TcgLogs

namespace TcgLogs

/-! ## Statistics aggregator (src/statistics/calculator.ts) -/

def createEmptyPlayerStats : PlayerStatistics :=
  { totalDamageDealt := 0, totalCardsDrawn := 0,
    trainersPlayed := { supporters := [], items := [], tools := [], stadiums := [] },
    pokemonKnockedOut := 0, prizeCardsTaken := 0,
    coinFlips := { heads := 0, tails := 0 }, turnsPlayed := 0 }

/-- `stats[k] = v` on the association-list model of a JS record: overwrite
in place, else append. -/
def supsert (m : MatchStatistics) (k : String) (v : PlayerStatistics) :
    MatchStatistics :=
  match m with
  | [] => [(k, v)]
  | (k', v') :: rest =>
    if k' = k then (k, v) :: rest else (k', v') :: supsert rest k v

/-- In-place mutation of the record stored at an existing key. -/
def supdate (m : MatchStatistics) (k : String)
    (f : PlayerStatistics → PlayerStatistics) : MatchStatistics :=
  match m with
  | [] => []
  | (k', v) :: rest =>
    if k' = k then (k', f v) :: rest else (k', v) :: supdate rest k f

/-- Increment-or-insert in a `{name, count}` list
(`categorizeAndCountTrainer`'s find-then-push). -/
def incTrainer (l : List TrainerPlayCount) (name : String) :
    List TrainerPlayCount :=
  match l with
  | [] => [{ name, count := 1 }]
  | t :: ts =>
    if t.name = name then { t with count := t.count + 1 } :: ts
    else t :: incTrainer ts name

/-- `categorizeAndCountTrainer` (src/statistics/calculator.ts); the JS
guard `if (!trainerName || !category) return` drops falsy names. -/
def categorizeAndCountTrainer (stats : PlayerStatistics)
    (details : EventDetails) : PlayerStatistics :=
  match details.trainerName, details.trainerCategory with
  | some trainerName, some category =>
    if trainerName = "" then stats
    else
      let tp := stats.trainersPlayed
      let tp :=
        match category with
        | .supporter => { tp with supporters := incTrainer tp.supporters trainerName }
        | .item => { tp with items := incTrainer tp.items trainerName }
        | .tool => { tp with tools := incTrainer tp.tools trainerName }
        | .stadium => { tp with stadiums := incTrainer tp.stadiums trainerName }
      { stats with trainersPlayed := tp }
  | _, _ => stats

/-- One case of `calculateStatistics`' event switch, applied to the acting
player's record. -/
def applyEventToStats (playerStats : PlayerStatistics) (event : GameEvent) :
    PlayerStatistics :=
  match event.type with
  | .draw =>
    { playerStats with
      totalCardsDrawn := playerStats.totalCardsDrawn + (event.details.cardCount.getD 1) }
  | .attack =>
    { playerStats with
      totalDamageDealt := playerStats.totalDamageDealt + (event.details.damage.getD 0) }
  | .knockout =>
    { playerStats with pokemonKnockedOut := playerStats.pokemonKnockedOut + 1 }
  | .prize_taken =>
    { playerStats with
      prizeCardsTaken := playerStats.prizeCardsTaken + (event.details.prizesTaken.getD 1) }
  | .play_trainer => categorizeAndCountTrainer playerStats event.details
  | .coin_flip =>
    { playerStats with
      coinFlips :=
        { heads := playerStats.coinFlips.heads + (event.details.headsCount.getD 0),
          tails := playerStats.coinFlips.tails + (event.details.tailsCount.getD 0) } }
  | _ => playerStats

/-- The initialisation loop of `calculateStatistics`: both players get a
zeroed record. -/
def statsInit (playerNames : String × String) : MatchStatistics :=
  supsert (supsert [] playerNames.1 createEmptyPlayerStats) playerNames.2
    createEmptyPlayerStats

/-- The event fold of `calculateStatistics`: events by unknown players are
skipped. -/
def statsFold (events : List GameEvent) (stats : MatchStatistics) :
    MatchStatistics :=
  events.foldl
    (fun stats event =>
      match slookup stats event.player with
      | none => stats
      | some _ => supdate stats event.player (fun s => applyEventToStats s event))
    stats

/-- `calculateStatistics` (src/statistics/calculator.ts). -/
def calculateStatistics (events : List GameEvent)
    (playerNames : String × String) : MatchStatistics :=
  statsFold events (statsInit playerNames)

/-! ## Parser orchestrator (src/parser/index.ts `parseLog`) -/

/-- The `turnsPlayed` backfill loop of `parseLog`. -/
def updateTurnsPlayed (statistics : MatchStatistics) (turns : List Turn) :
    MatchStatistics :=
  turns.foldl
    (fun stats turn =>
      match slookup stats turn.player with
      | none => stats
      | some _ =>
        supdate stats turn.player (fun s => { s with turnsPlayed := s.turnsPlayed + 1 }))
    statistics

/-- `[...new Set(xs)]` — deduplicate keeping first occurrences. -/
def dedupSet (xs : List String) : List String := xs.foldl addPokemonIfNew []

/-- `turnResult.winner || 'Unknown'` (JS falsy-string default). -/
def jsOrUnknown : Option String → String
  | none => "Unknown"
  | some s => if s = "" then "Unknown" else s

/-- The tail of a successful `parseLog`: pokemon-set union, event
concatenation, statistics, winner inference from the prize threshold, and
the `turnsPlayed` backfill, in source order. -/
def buildMatchData (setup : SetupResult) (turnResult : TurnParseResult) :
    MatchData :=
  let playerNames := (setup.players.1.username, setup.players.2.username)
  let allPokemon := dedupSet (setup.pokemonInMatch ++ turnResult.pokemonInMatch)
  let allEvents := setup.events ++ turnResult.events
  let statistics := calculateStatistics allEvents playerNames
  let winner0 := jsOrUnknown turnResult.winner
  let winCondition0 := turnResult.winCondition.getD .prizes
  let inferred :=
    if winner0 = "Unknown" then
      let p1Prizes : Nat :=
        ((slookup statistics playerNames.1).map PlayerStatistics.prizeCardsTaken).getD 0
      let p2Prizes : Nat :=
        ((slookup statistics playerNames.2).map PlayerStatistics.prizeCardsTaken).getD 0
      if 6 ≤ p1Prizes then (playerNames.1, WinCondition.prizes)
      else if 6 ≤ p2Prizes then (playerNames.2, WinCondition.prizes)
      else (winner0, winCondition0)
    else (winner0, winCondition0)
  { players := setup.players,
    coinFlipWinner := setup.coinFlipWinner,
    coinFlipChoice := setup.coinFlipChoice,
    turns := turnResult.turns,
    events := allEvents,
    winner := inferred.1,
    winCondition := inferred.2,
    statistics := updateTurnsPlayed statistics turnResult.turns,
    pokemonInMatch := allPokemon }

/-- `parseLog` with the process-wide event counter made explicit: it is
reset on entry (source line `resetEventCounter()`), then threaded through
setup and turn parsing; the final counter value is returned alongside the
result. -/
def parseLogSt (counter0 : Nat) (logText : String) : ParseResult × Nat :=
  let counter := resetEventCounter counter0
  if jsTrim logText = "" then
    (.failure "Please paste a game log to analyze", counter)
  else
    let lines := splitLogIntoLines logText
    if (lines.contains "Setup") = false then
      (.failure "Invalid log format: missing setup phase", counter)
    else
      match parseSetup lines counter with
      | (.error e, c1) => (.failure e, c1)
      | (.ok setup, c1) =>
        let turnResult := parseTurns (lines.drop setup.setupEndIndex) setup.players c1
        if turnResult.turns.length = 0 then
          (.failure "Invalid log format: no game turns found", turnResult.counter)
        else
          (.success (buildMatchData setup turnResult), turnResult.counter)

/-- `parseLog(logText)` — the sole public entry point, starting from a
freshly reset counter. -/
def parseLog (logText : String) : ParseResult := (parseLogSt 0 logText).1

end TcgLogs

namespace TcgLogs

/-! ## Deck reconstructor (src/services/deckReconstructor.ts) -/

inductive CardCategory where
  | pokemon | trainer | energy
deriving DecidableEq, Repr

/-- The union of the trainer and energy subcategory string unions. -/
inductive Subcategory where
  | supporter | item | tool | stadium | basic | special
deriving DecidableEq, Repr

def trainerSub : TrainerCategory → Subcategory
  | .supporter => .supporter
  | .item => .item
  | .tool => .tool
  | .stadium => .stadium

inductive Confidence where
  | confirmed | inferred
deriving DecidableEq, Repr

structure ExtractedCard where
  name : String
  category : CardCategory
  subcategory : Option Subcategory := none
  count : Nat
  confidence : Confidence
  evolutionStage : Option Nat := none
  evolvesFrom : Option String := none
deriving DecidableEq, Repr

structure DeckCard where
  name : String
  category : CardCategory
  subcategory : Option Subcategory := none
  count : Nat
  minCount : Nat
  confidence : Confidence
  evolutionStage : Option Nat := none
  evolvesFrom : Option String := none
deriving DecidableEq, Repr

structure TrainerDecks where
  supporters : List DeckCard
  items : List DeckCard
  tools : List DeckCard
  stadiums : List DeckCard
deriving DecidableEq, Repr

structure EnergyDecks where
  basic : List DeckCard
  special : List DeckCard
deriving DecidableEq, Repr

structure ReconstructedDeck where
  playerName : String
  cards : List DeckCard
  totalCardsObserved : Nat
  pokemon : List DeckCard
  trainers : TrainerDecks
  energy : EnergyDecks
deriving DecidableEq, Repr

abbrev PlayerDecks := List (String × ReconstructedDeck)

/-- `BASIC_ENERGY_PATTERN = /^Basic \w+ Energy$/` and `isBasicEnergy`. -/
def isBasicEnergy (energyName : String) : Bool :=
  (do
    let r ← dropLit "Basic ".data energyName.data
    let (_, r) ← takeRun wordChar r
    let r ← dropLit " Energy".data r
    if r = [] then some () else none).isSome

/-- `/Energy$/i` — case-insensitive suffix test used for special-energy
inference on drawn cards. -/
def endsWithEnergyCI (cardName : String) : Bool :=
  isSuffixList "energy".data (lowerList cardName.data)

/-- `categorizeCard` (deckReconstructor.ts). -/
def categorizeCard (cardName : String) (eventType : EventType)
    (trainerCategory : Option Subcategory := none) :
    CardCategory × Option Subcategory :=
  match eventType with
  | .play_pokemon => (.pokemon, none)
  | .evolve => (.pokemon, none)
  | .play_trainer =>
    let subcategory :=
      match trainerCategory with
      | some c => c
      | none => trainerSub (getTrainerCategory cardName)
    (.trainer, some subcategory)
  | .attach_energy =>
    (.energy, some (if isBasicEnergy cardName then .basic else .special))
  | _ =>
    if isBasicEnergy cardName then (.energy, some .basic)
    else if endsWithEnergyCI cardName then (.energy, some .special)
    else if isKnownTrainer cardName then
      (.trainer, some (trainerSub (getTrainerCategory cardName)))
    else (.pokemon, none)

abbrev CardMap := List (String × ExtractedCard)

/-- `addOrUpdateCard` (deckReconstructor.ts): increment with the 4-copy
cap — lifted to unlimited when the incoming observation is classified as
basic energy — and first-wins subcategory / evolvesFrom updates. -/
def addOrUpdateCard (cardMap : CardMap) (name : String)
    (category : CardCategory) (subcategory : Option Subcategory)
    (confidence : Confidence) (evolvesFromInfo : Option String := none) :
    CardMap :=
  match slookup cardMap name with
  | some _ =>
    cardMap.map fun (k, existing) =>
      if k = name then
        let isBasicEnergyCard := category = .energy ∧ subcategory = some .basic
        let existing :=
          if isBasicEnergyCard ∨ existing.count < 4 then
            { existing with count := existing.count + 1 }
          else existing
        let existing :=
          match subcategory, existing.subcategory with
          | some sub, none => { existing with subcategory := some sub }
          | _, _ => existing
        let existing :=
          if strTruthy evolvesFromInfo ∧ existing.evolvesFrom = none then
            { existing with evolvesFrom := evolvesFromInfo }
          else existing
        (k, existing)
      else (k, existing)
  | none =>
    cardMap ++ [(name,
      { name, category, subcategory, count := 1, confidence,
        evolvesFrom := evolvesFromInfo })]

/-- `/attached (.+?) to/` on an event's description (unanchored, lazy). -/
def attachedNameFromDescription (description : String) : Option String :=
  searchFrom
    (fun t => do
      let t ← dropLit "attached ".data t
      let (g, _) ← lazyPlus (fun _ => true) (fun u => dropLit " to".data u) t
      pure (String.mk g))
    description.data

/-- One event of `extractCardsFromEvents`' loop (the `switch` body; events
of other players were already filtered out by the caller). -/
def extractFromEvent (cardMap : CardMap) (event : GameEvent) : CardMap :=
  match event.type with
  | .play_pokemon =>
    match event.details.pokemonName with
    | some pokemonName =>
      if pokemonName ≠ "" then
        addOrUpdateCard cardMap pokemonName .pokemon none .confirmed
      else cardMap
    | none => cardMap
  | .evolve =>
    let cardMap :=
      match event.details.pokemonName with
      | some evolvedPokemon =>
        if evolvedPokemon ≠ "" then
          addOrUpdateCard cardMap evolvedPokemon .pokemon none .confirmed
            event.details.evolvedFrom
        else cardMap
      | none => cardMap
    match event.details.evolvedFrom with
    | some basePokemon =>
      if basePokemon ≠ "" then
        addOrUpdateCard cardMap basePokemon .pokemon none .confirmed
      else cardMap
    | none => cardMap
  | .play_trainer =>
    match event.details.trainerName with
    | some trainerName =>
      if trainerName ≠ "" then
        addOrUpdateCard cardMap trainerName .trainer
          (event.details.trainerCategory.map trainerSub) .confirmed
      else cardMap
    | none => cardMap
  | .attach_energy =>
    match attachedNameFromDescription event.description with
    | some energyName =>
      let subcategory : Subcategory :=
        if isBasicEnergy energyName then .basic else .special
      addOrUpdateCard cardMap energyName .energy (some subcategory) .confirmed
    | none => cardMap
  | .draw =>
    match event.details.cardNames with
    | some cardNames =>
      if 0 < cardNames.length then
        cardNames.foldl
          (fun cardMap cardName =>
            let (category, subcategory) := categorizeCard cardName .draw
            addOrUpdateCard cardMap cardName category subcategory .confirmed)
          cardMap
      else cardMap
    | none => cardMap
  | _ => cardMap

/-- `extractCardsFromEvents` (deckReconstructor.ts). -/
def extractCardsFromEvents (events : List GameEvent) (playerName : String) :
    CardMap :=
  events.foldl
    (fun cardMap event =>
      if event.player ≠ playerName then cardMap
      else extractFromEvent cardMap event)
    []

/-- The `evolved → base` map built from `evolve` events (`Map.set`
upsert; both names must be truthy). -/
def buildEvolutionChains (events : List GameEvent) : List (String × String) :=
  events.foldl
    (fun chains event =>
      if event.type = .evolve then
        match event.details.pokemonName, event.details.evolvedFrom with
        | some evolved, some base =>
          if evolved ≠ "" ∧ base ≠ "" then chainSet chains evolved base
          else chains
        | _, _ => chains
      else chains)
    []
where
  chainSet (chains : List (String × String)) (k v : String) :
      List (String × String) :=
    match chains with
    | [] => [(k, v)]
    | (k', v') :: rest =>
      if k' = k then (k, v) :: rest else (k', v') :: chainSet rest k v

/-- The stage-counting walk of `buildEvolutionRelationships`; `fuel`
bounds the loop, `none` models the JS infinite loop on a cyclic chain map
(fuel `chains.length` is exact: a terminating walk visits pairwise-distinct
keys). -/
def chainWalk (chains : List (String × String)) : Nat → String → Option Nat
  | fuel, name =>
    match slookup chains name with
    | none => some 0
    | some next =>
      match fuel with
      | 0 => none
      | f + 1 => (chainWalk chains f next).map (· + 1)

/-- `buildEvolutionRelationships` (deckReconstructor.ts): assign
`evolutionStage` by walking the chain map and backfill `evolvesFrom`;
non-pokemon cards are untouched.  `none` models divergence. -/
def buildEvolutionRelationships (events : List GameEvent)
    (cardMap : CardMap) : Option CardMap :=
  let chains := buildEvolutionChains events
  cardMap.mapM fun (k, card) =>
    if card.category ≠ .pokemon then some (k, card)
    else do
      let stage ← chainWalk chains chains.length k
      let card := { card with evolutionStage := some stage }
      let card :=
        match slookup chains k with
        | some base => { card with evolvesFrom := some base }
        | none => card
      pure (k, card)

/-- `toDeckCards` (deckReconstructor.ts): `minCount` mirrors `count`. -/
def toDeckCards (cardMap : CardMap) : List DeckCard :=
  cardMap.map fun (_, card) =>
    { name := card.name, category := card.category,
      subcategory := card.subcategory, count := card.count,
      minCount := card.count, confidence := card.confidence,
      evolutionStage := card.evolutionStage, evolvesFrom := card.evolvesFrom }

/-- `card.evolutionStage ?? 0`. -/
def stageVal (c : DeckCard) : Nat := c.evolutionStage.getD 0

/-- The in-group insert of `sortByEvolutionLine`'s second pass: before the
first member of strictly greater stage, else at the end. -/
def insertIntoGroup (card : DeckCard) : List DeckCard → List DeckCard
  | [] => [card]
  | d :: ds =>
    if stageVal card < stageVal d then card :: d :: ds
    else d :: insertIntoGroup card ds

abbrev Groups := List (String × List DeckCard)

/-- First pass of `sortByEvolutionLine`: each basic Pokemon (stage 0 or no
truthy `evolvesFrom`) seeds a singleton group keyed by its own name.  (The
source also builds a `basicPokemon` array that is never read afterwards.) -/
def seedGroups (pokemonCards : List DeckCard) : Groups :=
  pokemonCards.foldl
    (fun gs c =>
      if c.evolutionStage = some 0 ∨ strTruthy c.evolvesFrom = false then
        gs ++ [(c.name, [c])]
      else gs)
    []

/-- Update the group stored at a key (the JS code mutates the found group
array in place). -/
def updateGroup (gs : Groups) (k : String) (card : DeckCard) : Groups :=
  gs.map fun (k', g) => if k' = k then (k', insertIntoGroup card g) else (k', g)

/-- The scan fallback: the first group some member of which is named
`root`. -/
def scanGroups (gs : Groups) (root : String) : Option String :=
  match gs with
  | [] => none
  | (k, g) :: rest =>
    if g.any (fun c => c.name = root) then some k else scanGroups rest root

/-- Second-pass step of `sortByEvolutionLine` for one card with a truthy
`evolvesFrom`: direct key lookup, then the scan fallback, else a new
singleton group. -/
def addToGroups (gs : Groups) (card : DeckCard) (root : String) : Groups :=
  if (slookup gs root).isSome then updateGroup gs root card
  else
    match scanGroups gs root with
    | some k => updateGroup gs k card
    | none => gs ++ [(card.name, [card])]

/-- Stable insert for the final per-group `sort((a, b) => stage a - stage b)`. -/
def insertByStage (c : DeckCard) : List DeckCard → List DeckCard
  | [] => [c]
  | d :: ds => if stageVal c ≤ stageVal d then c :: d :: ds else d :: insertByStage c ds

/-- `Array.prototype.sort` with the stage comparator, modelled as a stable
insertion sort (the JS sort is stable, and output of a stable sort under a
total preorder is unique). -/
def sortStage (g : List DeckCard) : List DeckCard :=
  g.foldr insertByStage []

/-- `sortByEvolutionLine` (deckReconstructor.ts). -/
def sortByEvolutionLine (pokemonCards : List DeckCard) : List DeckCard :=
  let groups := seedGroups pokemonCards
  let groups :=
    pokemonCards.foldl
      (fun gs card =>
        match card.evolvesFrom with
        | some root => if root ≠ "" then addToGroups gs card root else gs
        | none => gs)
      groups
  (groups.map (fun e => sortStage e.2)).flatten

/-- `buildReconstructedDeck` (deckReconstructor.ts). -/
def buildReconstructedDeck (playerName : String) (cardMap : CardMap) :
    ReconstructedDeck :=
  let allCards := toDeckCards cardMap
  let pokemon := allCards.filter (fun c => c.category = .pokemon)
  let trainers := allCards.filter (fun c => c.category = .trainer)
  let energy := allCards.filter (fun c => c.category = .energy)
  { playerName,
    cards := allCards,
    totalCardsObserved := (allCards.map DeckCard.count).sum,
    pokemon := sortByEvolutionLine pokemon,
    trainers :=
      { supporters := trainers.filter (fun c => c.subcategory = some .supporter),
        items := trainers.filter (fun c => c.subcategory = some .item),
        tools := trainers.filter (fun c => c.subcategory = some .tool),
        stadiums := trainers.filter (fun c => c.subcategory = some .stadium) },
    energy :=
      { basic := energy.filter (fun c => c.subcategory = some .basic),
        special := energy.filter (fun c => c.subcategory = some .special) } }

/-- `playerDecks[playerName] = deck` (JS record upsert). -/
def deckUpsert (decks : PlayerDecks) (k : String) (v : ReconstructedDeck) :
    PlayerDecks :=
  match decks with
  | [] => [(k, v)]
  | (k', v') :: rest =>
    if k' = k then (k, v) :: rest else (k', v') :: deckUpsert rest k v

/-- `reconstructDecks` (deckReconstructor.ts): per player, extraction,
evolution-stage assignment, categorised assembly.  `none` models the
uncatchable divergence of a cyclic evolution map. -/
def reconstructDecks (matchData : MatchData) : Option PlayerDecks := do
  let processPlayer := fun (decks : PlayerDecks) (player : Player) => do
    let playerName := player.username
    let cardMap := extractCardsFromEvents matchData.events playerName
    let cardMap ← buildEvolutionRelationships matchData.events cardMap
    pure (deckUpsert decks playerName (buildReconstructedDeck playerName cardMap))
  let decks ← processPlayer [] matchData.players.1
  processPlayer decks matchData.players.2

end TcgLogs

namespace TcgLogs

/-! ## Concrete inputs used by the claim theorems -/

/-- Scenario 1: valid setup block, one turn marker, an attack line, a
concession line by Player2. -/
def c1log : String :=
  "Setup\nPlayer1 chose heads for the opening coin flip.\nPlayer1 won the coin toss.\nPlayer1 decided to go first.\nPlayer1 drew 7 cards for the opening hand.\nPlayer2 drew 7 cards for the opening hand.\n[playerName]'s Turn\nPlayer1's Pikachu used Thunder Shock on Player2's Alakazam ex for 20 damage.\nPlayer2 conceded"

/-- Scenario 2: Player1's only damage-dealing line is the damage-counter
line (no direct attack), exactly as in the repository's own test
`should track damage from damage counters`. -/
def c2log : String :=
  "Setup\nPlayer1 chose heads for the opening coin flip.\nPlayer1 won the coin toss.\nPlayer1 decided to go first.\nPlayer1 drew 7 cards for the opening hand.\nPlayer2 drew 7 cards for the opening hand.\n[playerName]'s Turn\nPlayer1's Alakazam used Powerful Hand.\n- Player1 put 22 damage counters on Player2's Pikachu ex."

/-- Setup marker followed immediately by a turn marker: no player lines. -/
def c7logNoPlayers : String := "Setup\n[playerName]'s Turn"

/-- Two identifiable players but no coin-toss-winner line. -/
def c7logNoCoin : String :=
  "Setup\nPlayer1 chose heads for the opening coin flip.\nPlayer2 drew 7 cards for the opening hand.\n[playerName]'s Turn"

/-- A complete setup but no turn marker at all: zero turns. -/
def c7logNoTurns : String :=
  "Setup\nPlayer1 won the coin toss.\nPlayer2 drew 7 cards for the opening hand."

def successData : ParseResult → Option MatchData
  | .success md => some md
  | .failure _ => none

/-- The winner/winCondition pair of a successful parse. -/
def winnerOf (r : ParseResult) : Option (String × WinCondition) :=
  (successData r).map fun md => (md.winner, md.winCondition)

/-- A player's aggregated `totalDamageDealt` in a successful parse. -/
def damageOf (r : ParseResult) (p : String) : Option Nat :=
  (successData r).bind fun md =>
    (slookup md.statistics p).map PlayerStatistics.totalDamageDealt

def mkEvolveEvent (c : Nat) (player evolved base : String) : GameEvent :=
  { id := "event-" ++ toString c, turn := 1, player, type := .evolve,
    description := player ++ " evolved " ++ base ++ " to " ++ evolved,
    details := { pokemonName := some evolved, evolvedFrom := some base },
    timestamp := c }

/-- Player1 evolves Drakloak into Dragapult without ever owning Dreepy;
Player2 evolves Dreepy into Drakloak.  Both evolve events feed the shared
chain map, so Player1's Drakloak is assigned stage 1 with a pre-evolution
that is absent from Player1's deck. -/
def c3md : MatchData :=
  { players := ({ username := "P1", isFirst := true },
                { username := "P2", isFirst := false }),
    coinFlipWinner := "P1", coinFlipChoice := .first,
    turns := [],
    events := [mkEvolveEvent 1 "P1" "Dragapult" "Drakloak",
               mkEvolveEvent 2 "P2" "Drakloak" "Dreepy"],
    winner := "P1", winCondition := .prizes, statistics := [],
    pokemonInMatch := [] }

/-- Scenario 4: one evolve event, Dreepy → Drakloak. -/
def c3md4 : MatchData :=
  { players := ({ username := "P1", isFirst := true },
                { username := "P2", isFirst := false }),
    coinFlipWinner := "P1", coinFlipChoice := .first,
    turns := [],
    events := [mkEvolveEvent 1 "P1" "Drakloak" "Dreepy"],
    winner := "P1", winCondition := .prizes, statistics := [],
    pokemonInMatch := [] }

def mkTrainerEvent (c : Nat) (player name : String) : GameEvent :=
  { id := "event-" ++ toString c, turn := 1, player, type := .play_trainer,
    description := player ++ " played " ++ name,
    details := { trainerName := some name, trainerCategory := some .item },
    timestamp := c }

def mkAttachEvent (c : Nat) (player energy target : String) : GameEvent :=
  { id := "event-" ++ toString c, turn := 1, player, type := .attach_energy,
    description := player ++ " attached " ++ energy ++ " to " ++ target,
    details := { pokemonName := some target },
    timestamp := c }

/-- Scenario 3: a non-basic trainer played six times and "Basic Water
Energy" attached five times. -/
def c4md : MatchData :=
  { players := ({ username := "P1", isFirst := true },
                { username := "P2", isFirst := false }),
    coinFlipWinner := "P1", coinFlipChoice := .first,
    turns := [],
    events :=
      (List.range 6).map
        (fun i => mkTrainerEvent i "P1" "Ultra Ball") ++
      (List.range 5).map
        (fun i => mkAttachEvent (10 + i) "P1" "Basic Water Energy" "Pikachu"),
    winner := "P1", winCondition := .prizes, statistics := [],
    pokemonInMatch := [] }

/-! ## Claim C1 -/

/-- C1 (code bug): on the Scenario-1 log the embedded `parseLog` succeeds
and counts the 20 attack damage, but — because neither the turn parser nor
the orchestrator ever consults `PATTERNS.concede` — the concession line
produces no winner: the result is `winner = "Unknown"`,
`winCondition = prizes`, not `"Player1"`/`concede` as the claim (and the
repository's own test `should detect winner from "PlayerName conceded"
format`) requires. -/
theorem c1_concede_line_leaves_winner_unknown :
    winnerOf (parseLog c1log) = some ("Unknown", WinCondition.prizes) ∧
    damageOf (parseLog c1log) "Player1" = some 20 := by
  decide

/-! ## Claim C2 -/

/-- C2 (code bug): on the Scenario-2 log, the line
`- Player1 put 22 damage counters on Player2's Pikachu ex.` matches no
skip pattern and no event pattern (no damage-counter rule exists anywhere
in the parser), so it is silently dropped and Player1's
`totalDamageDealt` is 0 — not 220 as the claim and the repository's own
test `should track damage from damage counters` require. -/
theorem c2_damage_counters_not_counted :
    (successData (parseLog c2log)).isSome = true ∧
    damageOf (parseLog c2log) "Player1" = some 0 := by
  decide

/-! ## Claim C7 -/

/-- C7: `parseLog` returns each input-validation failure as a typed
result (the embedding is a total function, so no case can throw): empty
and whitespace-only input, missing `Setup` marker, fewer than two
identified players, no coin-flip winner, and zero parsed turns. -/
theorem c7_input_validation_failures :
    (∀ logText : String, jsTrim logText = "" →
       parseLog logText = .failure "Please paste a game log to analyze") ∧
    (∀ logText : String, jsTrim logText ≠ "" →
       (splitLogIntoLines logText).contains "Setup" = false →
       parseLog logText = .failure "Invalid log format: missing setup phase") ∧
    parseLog c7logNoPlayers = .failure "Could not identify players in the log" ∧
    parseLog c7logNoCoin = .failure "Invalid log format: missing coin flip information" ∧
    parseLog c7logNoTurns = .failure "Invalid log format: no game turns found" := by
  refine ⟨?_, ?_, by decide, by decide, by decide⟩
  · intro t h
    simp [parseLog, parseLogSt, h]
  · intro t h1 h2
    have hnm : "Setup" ∉ splitLogIntoLines t := by
      intro hm
      simp [List.contains] at h2
      exact absurd hm h2
    simp [parseLog, parseLogSt, h1, hnm]

/-- Witness for C7's universally quantified conjuncts, discharged at
whitespace-only and setup-less concrete inputs. -/
theorem c7_input_validation_failures_witness :
    parseLog "   \n\t  " = .failure "Please paste a game log to analyze" ∧
    parseLog "Some random text\nwithout setup" =
      .failure "Invalid log format: missing setup phase" :=
  ⟨c7_input_validation_failures.1 "   \n\t  " (by decide),
   c7_input_validation_failures.2.1 "Some random text\nwithout setup"
     (by decide) (by decide)⟩

/-! ## Claim C8 -/

/-- C8: `parseLog` resets the event counter on entry, so two runs on the
same text — whatever the counter held before each run — produce
structurally identical results (identical event ids included) and leave
identical counters. -/
theorem c8_parse_idempotent (logText : String) (c₁ c₂ : Nat) :
    parseLogSt c₁ logText = parseLogSt c₂ logText := rfl

/-- C8 instance: a second run started from the counter the first run left
behind returns the same result as the first run. -/
theorem c8_parse_idempotent_witness :
    (parseLogSt ((parseLogSt 0 c1log).2) c1log).1 = (parseLogSt 0 c1log).1 :=
  congrArg Prod.fst (c8_parse_idempotent c1log ((parseLogSt 0 c1log).2) 0)

/-! ## Claim C3: counterexample -/

/-- C3 counterexample: in the deck `reconstructDecks` produces for `P1`
from `c3md`, the pokemon list is `[Dragapult, Drakloak]` with
`Dragapult.evolvesFrom = "Drakloak"` — the card at index 0 evolves from
the card at index 1, so the pre-evolution does NOT appear at a strictly
earlier index. -/
theorem c3_evolution_order_counterexample :
    ((reconstructDecks c3md).bind (fun decks => slookup decks "P1")).map
        (fun d => d.pokemon.map (fun c => (c.name, c.evolvesFrom))) =
      some [("Dragapult", some "Drakloak"), ("Drakloak", some "Dreepy")] := by
  decide

end TcgLogs
namespace TcgLogs

/-! ## Claim C6: damage conservation -/

/-- Sum of `damage` (0 when absent) over the attack events attributed to
player `p`. -/
def attackDamageSum (events : List GameEvent) (p : String) : Nat :=
  ((events.filter (fun e => e.player = p ∧ e.type = .attack)).map
    (fun e => e.details.damage.getD 0)).sum

/-- Looking a key up after an in-place update. -/
theorem slookup_supdate (m : MatchStatistics) (k : String)
    (f : PlayerStatistics → PlayerStatistics) (p : String) :
    slookup (supdate m k f) p =
      if k = p then (slookup m p).map f else slookup m p := by
  induction m with
  | nil => simp [supdate, slookup]
  | cons hd tl ih =>
    obtain ⟨k', v⟩ := hd
    by_cases hk : k' = k
    · subst hk
      by_cases hp : k' = p
      · subst hp; simp [supdate, slookup]
      · simp [supdate, slookup, hp]
    · by_cases hp : k' = p
      · subst hp
        simp [supdate, slookup, hk]
        rw [if_neg (fun h => hk h.symm)]
      · simp [supdate, slookup, hk, hp, ih]

/-- `applyEventToStats` changes `totalDamageDealt` only for attacks, by
the event's damage. -/
theorem applyEventToStats_damage (s : PlayerStatistics) (e : GameEvent) :
    (applyEventToStats s e).totalDamageDealt =
      s.totalDamageDealt + (if e.type = .attack then e.details.damage.getD 0 else 0) := by
  unfold applyEventToStats
  cases he : e.type <;> simp [he]
  unfold categorizeAndCountTrainer
  cases e.details.trainerName <;> cases e.details.trainerCategory <;> simp
  split <;> simp

/-- The per-step damage accounting of the statistics fold. -/
theorem statsFold_damage (events : List GameEvent) (stats : MatchStatistics)
    (p : String) :
    (slookup (statsFold events stats) p).map PlayerStatistics.totalDamageDealt =
      (slookup stats p).map
        (fun d => d.totalDamageDealt + attackDamageSum events p) := by
  induction events generalizing stats with
  | nil =>
    simp [statsFold, attackDamageSum]
  | cons e rest ih =>
    have step : statsFold (e :: rest) stats =
        statsFold rest
          (match slookup stats e.player with
           | none => stats
           | some _ => supdate stats e.player (fun s => applyEventToStats s e)) := by
      simp [statsFold]
    rw [step, ih]
    have hsum : attackDamageSum (e :: rest) p =
        (if e.player = p ∧ e.type = .attack then e.details.damage.getD 0 else 0) +
          attackDamageSum rest p := by
      unfold attackDamageSum
      by_cases h : e.player = p ∧ e.type = EventType.attack <;> simp [h, List.filter]
    rw [hsum]
    cases hl : slookup stats e.player with
    | none =>
      -- no entry for the acting player: if e.player = p the lookup at p is
      -- none on both sides; otherwise the contribution is zero.
      by_cases hp : e.player = p
      · subst hp; rw [hl]; simp
      · have : ¬ (e.player = p ∧ e.type = EventType.attack) := fun hc => hp hc.1
        simp [this]
    | some s0 =>
      rw [slookup_supdate]
      by_cases hp : e.player = p
      · subst hp
        rw [if_pos rfl, hl]
        simp [applyEventToStats_damage]
        by_cases ha : e.type = EventType.attack <;> simp [ha, Nat.add_assoc, Nat.add_comm, Nat.add_left_comm]
      · rw [if_neg hp]
        have : ¬ (e.player = p ∧ e.type = EventType.attack) := fun hc => hp hc.1
        simp [this]

/-- Both initial records are present and zeroed. -/
theorem slookup_statsInit (playerNames : String × String) (p : String)
    (hp : p = playerNames.1 ∨ p = playerNames.2) :
    slookup (statsInit playerNames) p = some createEmptyPlayerStats := by
  obtain ⟨n1, n2⟩ := playerNames
  by_cases h12 : n1 = n2
  · subst h12
    rcases hp with h | h <;> subst h <;> simp [statsInit, supsert, slookup]
  · rcases hp with h | h <;> subst h <;>
      simp [statsInit, supsert, slookup, h12, Ne.symm h12]

/-- C6: after `calculateStatistics`, each player's `totalDamageDealt` is
exactly the sum of the damage details (0 when absent) of the attack events
whose `player` field equals that player's username. -/
theorem c6_damage_conservation (events : List GameEvent)
    (playerNames : String × String) (p : String)
    (hp : p = playerNames.1 ∨ p = playerNames.2) :
    (slookup (calculateStatistics events playerNames) p).map
        PlayerStatistics.totalDamageDealt =
      some (attackDamageSum events p) := by
  unfold calculateStatistics
  rw [statsFold_damage, slookup_statsInit _ _ hp]
  simp [createEmptyPlayerStats]

def c6events : List GameEvent :=
  [{ id := "event-1", turn := 1, player := "A", type := .attack,
     description := "", details := { damage := some 30 }, timestamp := 0 },
   { id := "event-2", turn := 1, player := "A", type := .attack,
     description := "", details := { damage := some 12 }, timestamp := 1 },
   { id := "event-3", turn := 1, player := "B", type := .attack,
     description := "", details := { damage := some 5 }, timestamp := 2 },
   { id := "event-4", turn := 1, player := "A", type := .draw,
     description := "", details := { cardCount := some 3 }, timestamp := 3 }]

/-- C6 witness: the theorem applied to a concrete event list; player A's
total is the 30 + 12 of A's two attacks, ignoring B's attack and A's
draw. -/
theorem c6_damage_conservation_witness :
    (slookup (calculateStatistics c6events ("A", "B")) "A").map
        PlayerStatistics.totalDamageDealt = some (attackDamageSum c6events "A") ∧
    attackDamageSum c6events "A" = 42 :=
  ⟨c6_damage_conservation c6events ("A", "B") "A" (Or.inl rfl), by decide⟩

end TcgLogs
namespace TcgLogs

/-! ## Ordering invariants of the event stream -/

/-- The order relation of the turn-monotonicity invariant: turns
non-decreasing, timestamps strictly increasing within a turn. -/
def evOrd (a b : GameEvent) : Prop :=
  a.turn ≤ b.turn ∧ (a.turn = b.turn → a.timestamp < b.timestamp)

theorem createDrawEvent_fields (p : String) (n : Nat) (cn : Option (List String))
    (tn ts c : Nat) :
    (createDrawEvent p n cn tn ts c).1.turn = tn ∧
    (createDrawEvent p n cn tn ts c).1.timestamp = ts := ⟨rfl, rfl⟩

theorem createWinEvent_fields (w : String) (wc : WinCondition) (tn ts c : Nat) :
    (createWinEvent w wc tn ts c).1.turn = tn ∧
    (createWinEvent w wc tn ts c).1.timestamp = ts ∧
    (createWinEvent w wc tn ts c).1.type = EventType.win := ⟨rfl, rfl, rfl⟩

/-- The classifier emits at most one event per line; any event it emits
carries the current turn number and timestamp, and the winner fields are
changed only by the two win-condition branches, which also emit a `win`
event. -/
theorem tryParseEvent_spec (line : String) (rest : List String)
    (ordered : String × String) (cp : String) (bd : Option String)
    (pokes : List String) (tn ts cnt : Nat) (w : Option String)
    (wc : Option WinCondition) :
    (∀ ev, (tryParseEvent line rest ordered cp bd pokes tn ts cnt w wc).event = some ev →
      ev.turn = tn ∧ ev.timestamp = ts) ∧
    (((tryParseEvent line rest ordered cp bd pokes tn ts cnt w wc).winner = w ∧
      (tryParseEvent line rest ordered cp bd pokes tn ts cnt w wc).winCondition = wc) ∨
     (∃ ev, (tryParseEvent line rest ordered cp bd pokes tn ts cnt w wc).event = some ev ∧
        ev.type = EventType.win ∧
        (tryParseEvent line rest ordered cp bd pokes tn ts cnt w wc).winner.isSome ∧
        (tryParseEvent line rest ordered cp bd pokes tn ts cnt w wc).winCondition.isSome)) := by
  unfold tryParseEvent
  cases h1 : Patterns.deckOut line.data with
  | some w' =>
    simp [h1, createWinEvent, generateEventId]
  | none =>
  cases h2 : Patterns.prizeWin line.data with
  | some w' =>
    simp [h2, createWinEvent, generateEventId]
  | none =>
  cases h3 : Patterns.attack line.data with
  | some g =>
    obtain ⟨a, b, c, d, e, f⟩ := g
    simp [h3, createAttackEvent, generateEventId]
  | none =>
  cases h4 : Patterns.knockout line.data with
  | some g =>
    obtain ⟨a, b⟩ := g
    simp [h4, createKnockoutEvent, generateEventId]
  | none =>
  cases h5 : Patterns.prizeTaken line.data with
  | some a =>
    simp [h5, createPrizeTakenEvent, generateEventId]
  | none =>
  cases h6 : Patterns.switchedIn line.data with
  | some g =>
    obtain ⟨a, b⟩ := g
    simp [h6, createSwitchEvent, generateEventId]
  | none =>
  cases h7 : Patterns.usedAbility line.data with
  | some g =>
    obtain ⟨a, b, c⟩ := g
    simp [h7, createAbilityEvent, generateEventId]
  | none =>
  cases h8 : Patterns.evolved line.data with
  | some g =>
    obtain ⟨a, b, c⟩ := g
    simp [h8, createEvolveEvent, generateEventId]
  | none =>
  cases h9 : Patterns.playedStadium line.data with
  | some g =>
    obtain ⟨a, b⟩ := g
    simp [h9, createTrainerEvent, generateEventId]
  | none =>
  cases h10 : Patterns.playedPokemon line.data with
  | some g =>
    obtain ⟨a, b, c⟩ := g
    simp [h10, createPlayPokemonEvent, generateEventId]
  | none =>
  cases h11 : Patterns.playedTrainer line.data with
  | some g =>
    obtain ⟨a, b⟩ := g
    simp [h11, createTrainerEvent, generateEventId]
  | none =>
  cases h12 : Patterns.attachedEnergy line.data with
  | some g =>
    obtain ⟨a, b, c⟩ := g
    by_cases htool : getTrainerCategory b = TrainerCategory.tool
    · simp [h12, htool, createTrainerEvent, generateEventId]
    · simp [h12, htool, createEnergyEvent, generateEventId]
  | none =>
  cases h13 : Patterns.drewCard line.data with
  | some g =>
    obtain ⟨a, b⟩ := g
    by_cases hand : containsSub " and played".data b.data = true
    · simp only [h13, hand]
      cases h14 : Patterns.drewCards line.data with
      | some g2 =>
        obtain ⟨a2, b2⟩ := g2
        simp [h14, hand, createDrawEvent, generateEventId]
      | none =>
        cases h15 : Patterns.coinFlip line.data with
        | some g3 =>
          obtain ⟨a3, b3⟩ := g3
          simp [h14, h15, hand, createCoinFlipEvent, generateEventId]
        | none =>
          simp [h14, h15, hand]
    · simp [h13, hand, createDrawEvent, generateEventId]
  | none =>
  cases h14 : Patterns.drewCards line.data with
  | some g2 =>
    obtain ⟨a2, b2⟩ := g2
    simp [h14, createDrawEvent, generateEventId]
  | none =>
  cases h15 : Patterns.coinFlip line.data with
  | some g3 =>
    obtain ⟨a3, b3⟩ := g3
    simp [h15, createCoinFlipEvent, generateEventId]
  | none =>
    simp [h15]

end TcgLogs
namespace TcgLogs

/-- The loop invariant of `turnScan`: events so far are ordered and
bounded by the current turn/timestamp counters, events only exist past
the first marker, and a recorded winner goes together with a recorded win
condition and an emitted `win` event. -/
def TurnInv (st : TurnState) : Prop :=
  st.allEvents.Pairwise evOrd ∧
  (∀ e ∈ st.allEvents,
     1 ≤ e.turn ∧ e.turn ≤ st.turnNumber ∧
       (e.turn = st.turnNumber → e.timestamp < st.timestamp)) ∧
  (st.currentTurn ≠ none → 1 ≤ st.turnNumber) ∧
  (st.winner = none ↔ st.winCondition = none) ∧
  (∀ w, st.winner = some w → ∃ e ∈ st.allEvents, e.type = EventType.win)

theorem turnScan_inv (ordered : String × String) (lines : List String)
    (st : TurnState) (h : TurnInv st) : TurnInv (turnScan ordered lines st) := by
  induction lines generalizing st with
  | nil => simpa [turnScan] using h
  | cons line rest ih =>
    obtain ⟨hpw, hbound, hct, hwiff, hwin⟩ := h
    rw [turnScan]
    by_cases hts : isTurnStart line = true
    · simp only [hts, if_true]
      apply ih
      refine ⟨hpw, ?_, ?_, hwiff, hwin⟩
      · intro e he
        obtain ⟨h1, h2, _⟩ := hbound e he
        exact ⟨h1, by simpa using Nat.le_succ_of_le h2,
          fun hEq => absurd hEq (by simp; omega)⟩
      · intro _
        simp
    · simp only [hts, if_false]
      by_cases hsk : shouldSkipLine line = true
      · simp only [hsk, if_true]
        by_cases hbd : ((isPrefixList "- Damage breakdown:".data line.data = true ∨
            isPrefixList "   •".data line.data = true) ∧
            containsSub "damage".data line.data = true)
        · rw [if_pos hbd]
          exact ih _ ⟨hpw, hbound, hct, hwiff, hwin⟩
        · rw [if_neg hbd]
          exact ih _ ⟨hpw, hbound, hct, hwiff, hwin⟩
      · simp only [hsk, if_false]
        cases hcur : st.currentTurn with
        | none => simp only [hcur]; exact ih _ ⟨hpw, hbound, hct, hwiff, hwin⟩
        | some ct =>
          simp only [hcur]
          obtain ⟨hfields, hwspec⟩ := tryParseEvent_spec line rest ordered
            st.currentPlayer st.lastDamageBreakdown st.pokemonInMatch
            st.turnNumber st.timestamp st.counter st.winner st.winCondition
          cases hev : (tryParseEvent line rest ordered st.currentPlayer
              st.lastDamageBreakdown st.pokemonInMatch st.turnNumber
              st.timestamp st.counter st.winner st.winCondition).event with
          | some ev =>
            simp only [hev]
            apply ih
            obtain ⟨hturn, hts'⟩ := hfields ev hev
            have htn1 : 1 ≤ st.turnNumber := hct (by simp [hcur])
            unfold TurnInv
            dsimp only
            refine ⟨?_, ?_, ?_, ?_, ?_⟩
            · rw [List.pairwise_append]
              refine ⟨hpw, by simp, ?_⟩
              intro a ha b hb
              simp at hb
              subst hb
              obtain ⟨_, h2, h3⟩ := hbound a ha
              exact ⟨by omega, fun hEq => by rw [hts']; exact h3 (by omega)⟩
            · intro e he
              simp only [List.mem_append, List.mem_singleton] at he
              rcases he with he | he
              · obtain ⟨h1, h2, h3⟩ := hbound e he
                exact ⟨h1, h2, fun hEq => Nat.lt_succ_of_lt (h3 hEq)⟩
              · subst he
                exact ⟨by omega, by omega, fun _ => by omega⟩
            · intro _; exact htn1
            · rcases hwspec with ⟨hw, hwc⟩ | ⟨ev', hev', _, hw, hwc⟩
              · simpa [hw, hwc] using hwiff
              · constructor
                · intro hnone; simp [hnone] at hw
                · intro hnone; simp [hnone] at hwc
            · intro w hw'
              rcases hwspec with ⟨hw, _⟩ | ⟨ev', hev', htyp, _, _⟩
              · obtain ⟨e, he, hety⟩ := hwin w (hw ▸ hw')
                exact ⟨e, by simp [he], hety⟩
              · rw [hev] at hev'
                cases hev'
                refine ⟨ev, ?_, htyp⟩
                simp
          | none =>
            simp only [hev]
            apply ih
            unfold TurnInv
            dsimp only
            refine ⟨hpw, hbound, fun _ => hct (by simp [hcur]), ?_, ?_⟩
            · rcases hwspec with ⟨hw, hwc⟩ | ⟨ev', hev', _⟩
              · simpa [hw, hwc] using hwiff
              · rw [hev] at hev'; cases hev'
            · intro w hw'
              rcases hwspec with ⟨hw, _⟩ | ⟨ev', hev', _⟩
              · exact hwin w (hw ▸ hw')
              · rw [hev] at hev'; cases hev'

end TcgLogs
namespace TcgLogs

/-- The turn parser's output: ordered events, all in turns ≥ 1, and a
winner exactly when a win condition and a `win` event were produced. -/
theorem parseTurns_spec (lines : List String) (players : Player × Player)
    (counter : Nat) :
    (parseTurns lines players counter).events.Pairwise evOrd ∧
    (∀ e ∈ (parseTurns lines players counter).events, 1 ≤ e.turn) ∧
    ((parseTurns lines players counter).winner = none ↔
      (parseTurns lines players counter).winCondition = none) ∧
    (∀ w, (parseTurns lines players counter).winner = some w →
      ∃ e ∈ (parseTurns lines players counter).events, e.type = EventType.win) := by
  unfold parseTurns
  dsimp only
  have hinit : TurnInv
      { currentPlayer :=
          (if players.1.isFirst then players.1
           else if players.2.isFirst then players.2 else players.1).username,
        counter := counter } := by
    refine ⟨List.Pairwise.nil, ?_, ?_, ?_, ?_⟩ <;> simp [TurnInv]
  obtain ⟨h1, h2, _, h4, h5⟩ := turnScan_inv _ lines _ hinit
  exact ⟨h1, fun e he => (h2 e he).1, h4, h5⟩

end TcgLogs
namespace TcgLogs

/-- Ordering/shape invariant of the setup scan: setup events are ordered,
all in turn 0 with timestamps below the running counter, and only draw,
mulligan or play_pokemon events are ever created. -/
def SetupEvOk (events : List GameEvent) (ts : Nat) : Prop :=
  events.Pairwise evOrd ∧
  ∀ e ∈ events, e.turn = 0 ∧ e.timestamp < ts ∧
    (e.type = EventType.draw ∨ e.type = EventType.mulligan ∨
      e.type = EventType.play_pokemon)

theorem assignPlayer_fields (st : SetupState) (n : String) :
    (assignPlayer st n).events = st.events ∧
    (assignPlayer st n).timestamp = st.timestamp ∧
    (assignPlayer st n).counter = st.counter := by
  unfold assignPlayer
  cases hp : st.player1 with
  | none => exact ⟨rfl, rfl, rfl⟩
  | some p1 =>
    dsimp only
    by_cases hc : n ≠ p1 ∧ st.player2 = none
    · rw [if_pos hc]
      exact ⟨rfl, rfl, rfl⟩
    · rw [if_neg hc]
      exact ⟨rfl, rfl, rfl⟩

/-- Appending a fresh turn-0 event at the running timestamp preserves the
setup invariant. -/
theorem setupAppend_ok (events : List GameEvent) (ts : Nat) (ev : GameEvent)
    (h : SetupEvOk events ts) (h0 : ev.turn = 0) (hts : ev.timestamp = ts)
    (hty : ev.type = EventType.draw ∨ ev.type = EventType.mulligan ∨
      ev.type = EventType.play_pokemon) :
    SetupEvOk (events ++ [ev]) (ts + 1) := by
  obtain ⟨hpw, hall⟩ := h
  constructor
  · rw [List.pairwise_append]
    refine ⟨hpw, by simp, ?_⟩
    intro a ha b hb
    simp at hb
    subst hb
    obtain ⟨ha0, hats, _⟩ := hall a ha
    exact ⟨by omega, fun _ => by omega⟩
  · intro e he
    simp only [List.mem_append, List.mem_singleton] at he
    rcases he with he | he
    · obtain ⟨h1, h2, h3⟩ := hall e he
      exact ⟨h1, by omega, h3⟩
    · subst he
      exact ⟨h0, by omega, hty⟩

theorem setupLine_ok (st : SetupState) (line : String)
    (h : SetupEvOk st.events st.timestamp) :
    SetupEvOk (setupLine st line).events (setupLine st line).timestamp := by
  unfold setupLine
  by_cases h1 : isSetupHeader line = true
  · simpa [h1] using h
  · simp only [h1, if_false]
    by_cases h2 : ¬ st.inSetup = true
    · simpa [h2] using h
    · simp only [h2, if_false]
      cases hm1 : Patterns.coinFlipChoice line.data with
      | some name =>
        obtain ⟨he, hts, _⟩ := assignPlayer_fields st name
        simpa [hm1, he, hts] using h
      | none =>
      cases hm2 : Patterns.coinFlipWinner line.data with
      | some name =>
        obtain ⟨he, hts, _⟩ := assignPlayer_fields { st with coinFlipWinner := some name } name
        simpa [hm2, he, hts] using h
      | none =>
      cases hm3 : Patterns.goFirst line.data with
      | some g =>
        obtain ⟨name, choice⟩ := g
        obtain ⟨he, hts, _⟩ :=
          assignPlayer_fields
            { st with whoGoesFirst := some name, coinFlipChoice := some choice } name
        simpa [hm3, he, hts] using h
      | none =>
      cases hm4 : Patterns.openingHand line.data with
      | some g =>
        obtain ⟨name, cardCount⟩ := g
        obtain ⟨he, hts, hc⟩ := assignPlayer_fields st name
        simp only [hm4]
        rw [he, hts, hc]
        exact setupAppend_ok _ _ _ h rfl rfl (Or.inl rfl)
      | none =>
      cases hm5 : Patterns.mulligan line.data with
      | some name =>
        simp only [hm5]
        exact setupAppend_ok _ _ _ h rfl rfl (Or.inr (Or.inl rfl))
      | none =>
      cases hm6 : Patterns.mulliganDraw line.data with
      | some g =>
        obtain ⟨name, cardCount⟩ := g
        simp only [hm6]
        exact setupAppend_ok _ _ _ h rfl rfl (Or.inl rfl)
      | none =>
      cases hm7 : Patterns.playedPokemon line.data with
      | some g =>
        obtain ⟨name, pokemonName, locText⟩ := g
        simp only [hm7]
        by_cases hdup : st.pokemonInMatch.contains pokemonName = true
        · rw [if_pos hdup]
          exact setupAppend_ok st.events st.timestamp _ h rfl rfl (Or.inr (Or.inr rfl))
        · rw [if_neg hdup]
          exact setupAppend_ok st.events st.timestamp _ h rfl rfl (Or.inr (Or.inr rfl))
      | none => simpa [hm7] using h

theorem setupScan_ok (lines : List String) (st : SetupState) (idx : Nat)
    (h : SetupEvOk st.events st.timestamp) :
    SetupEvOk (setupScan st idx lines).events (setupScan st idx lines).timestamp := by
  induction lines generalizing st idx with
  | nil => simpa [setupScan] using h
  | cons line rest ih =>
    rw [setupScan]
    by_cases hts : isTurnStart line = true
    · simpa [hts] using h
    · simp only [hts, if_false]
      exact ih _ _ (setupLine_ok st line h)

/-- A successful `parseSetup` returns ordered turn-0 events of draw,
mulligan or play_pokemon type only. -/
theorem parseSetup_spec (lines : List String) (c : Nat) (r : SetupResult)
    (c' : Nat) (h : parseSetup lines c = (.ok r, c')) :
    r.events.Pairwise evOrd ∧
    ∀ e ∈ r.events, e.turn = 0 ∧
      (e.type = EventType.draw ∨ e.type = EventType.mulligan ∨
        e.type = EventType.play_pokemon) := by
  have hscan := setupScan_ok lines { counter := c } 0 ⟨List.Pairwise.nil, by simp⟩
  simp only [parseSetup] at h
  split at h
  · split at h
    · simp at h
    · simp only [Prod.mk.injEq, SetupParseResult.ok.injEq] at h
      obtain ⟨h1, _⟩ := h
      rw [← h1]
      exact ⟨hscan.1, fun e he => ⟨(hscan.2 e he).1, (hscan.2 e he).2.2⟩⟩
  · simp at h

/-- Inverting a successful `parseLog`: the match data is assembled by
`buildMatchData` from a successful setup parse and the turn parse that
follows it. -/
theorem parseLog_success_inversion (logText : String) (md : MatchData)
    (h : parseLog logText = ParseResult.success md) :
    ∃ setup c1,
      parseSetup (splitLogIntoLines logText) 0 = (.ok setup, c1) ∧
      md = buildMatchData setup
        (parseTurns ((splitLogIntoLines logText).drop setup.setupEndIndex)
          setup.players c1) := by
  simp only [parseLog, parseLogSt, resetEventCounter] at h
  split at h
  · simp at h
  · split at h
    · simp at h
    · split at h
      · simp at h
      · rename_i setup c1 heq
        split at h
        · simp at h
        · simp only [Prod.mk.injEq, ParseResult.success.injEq] at h
          exact ⟨setup, c1, heq, h.symm⟩

/-- C5: in every successfully parsed `MatchData`, the `turn` field is
non-decreasing along `events` in list order, and among events that share a
turn number the `timestamp` is strictly increasing (`evOrd`, pairwise). -/
theorem c5_turn_monotonicity (logText : String) (md : MatchData)
    (h : parseLog logText = ParseResult.success md) :
    md.events.Pairwise evOrd := by
  obtain ⟨setup, c1, hsetup, hmd⟩ := parseLog_success_inversion logText md h
  subst hmd
  obtain ⟨hsp, hse⟩ := parseSetup_spec _ _ _ _ hsetup
  obtain ⟨htp, hte, _, _⟩ :=
    parseTurns_spec ((splitLogIntoLines logText).drop setup.setupEndIndex)
      setup.players c1
  show (setup.events ++ _).Pairwise evOrd
  rw [List.pairwise_append]
  refine ⟨hsp, htp, ?_⟩
  intro a ha b hb
  obtain ⟨ha0, _⟩ := hse a ha
  have hb1 := hte b hb
  exact ⟨by omega, fun hEq => absurd hEq (by omega)⟩

/-- C5 witness: the pairwise ordering holds on the concrete Scenario-1
log. -/
theorem c5_turn_monotonicity_witness :
    (match parseLog c1log with
     | ParseResult.success md => md.events.Pairwise evOrd
     | ParseResult.failure _ => True) := by
  cases hsd : parseLog c1log with
  | success md => exact c5_turn_monotonicity c1log md hsd
  | failure e => trivial

end TcgLogs
namespace TcgLogs

/-- The `turnsPlayed` backfill changes no `prizeCardsTaken`. -/
theorem slookup_updateTurnsPlayed_prizes (turns : List Turn)
    (stats : MatchStatistics) (p : String) :
    (slookup (updateTurnsPlayed stats turns) p).map PlayerStatistics.prizeCardsTaken =
      (slookup stats p).map PlayerStatistics.prizeCardsTaken := by
  induction turns generalizing stats with
  | nil => simp [updateTurnsPlayed]
  | cons t ts ih =>
    have step : updateTurnsPlayed stats (t :: ts) =
        updateTurnsPlayed
          (match slookup stats t.player with
           | none => stats
           | some _ =>
             supdate stats t.player (fun s => { s with turnsPlayed := s.turnsPlayed + 1 }))
          ts := by
      simp [updateTurnsPlayed]
    rw [step, ih]
    cases hl : slookup stats t.player with
    | none => rfl
    | some s0 =>
      rw [slookup_supdate]
      by_cases hp : t.player = p
      · rw [if_pos hp]
        cases slookup stats p <;> rfl
      · rw [if_neg hp]

/-- What `buildMatchData` decides when the turn parser reported no winner:
the prize-threshold inference, then a literal `"Unknown"`/`prizes`. -/
theorem buildMatchData_winner_of_none (setup : SetupResult)
    (tr : TurnParseResult) (h1 : tr.winner = none) (h2 : tr.winCondition = none) :
    ((buildMatchData setup tr).winner, (buildMatchData setup tr).winCondition) =
      (if 6 ≤ ((slookup (calculateStatistics (setup.events ++ tr.events)
            (setup.players.1.username, setup.players.2.username))
            setup.players.1.username).map PlayerStatistics.prizeCardsTaken).getD 0 then
        (setup.players.1.username, WinCondition.prizes)
      else if 6 ≤ ((slookup (calculateStatistics (setup.events ++ tr.events)
            (setup.players.1.username, setup.players.2.username))
            setup.players.2.username).map PlayerStatistics.prizeCardsTaken).getD 0 then
        (setup.players.2.username, WinCondition.prizes)
      else ("Unknown", WinCondition.prizes)) := by
  unfold buildMatchData
  rw [h1, h2]
  simp only [jsOrUnknown, if_true, reduceIte]
  split_ifs <;> rfl

/-- `buildMatchData` projections used by the C9/C10 proofs. -/
theorem buildMatchData_projections (setup : SetupResult) (tr : TurnParseResult) :
    (buildMatchData setup tr).events = setup.events ++ tr.events ∧
    (buildMatchData setup tr).players = setup.players ∧
    (buildMatchData setup tr).statistics =
      updateTurnsPlayed
        (calculateStatistics (setup.events ++ tr.events)
          (setup.players.1.username, setup.players.2.username)) tr.turns :=
  ⟨rfl, rfl, rfl⟩

/-- C9: in a successful parse in which turn parsing produced no explicit
winner (equivalently: no `win` event), if either player's aggregated
`prizeCardsTaken` is at least 6, `parseLog` names a player with at least 6
prizes the winner (player 1 checked first) with winCondition `prizes`. -/
theorem c9_prize_winner_inference (logText : String) (md : MatchData)
    (h : parseLog logText = ParseResult.success md)
    (hnowin : ∀ e ∈ md.events, e.type ≠ EventType.win)
    (s1 s2 : PlayerStatistics)
    (h1 : slookup md.statistics md.players.1.username = some s1)
    (h2 : slookup md.statistics md.players.2.username = some s2)
    (hth : 6 ≤ s1.prizeCardsTaken ∨ 6 ≤ s2.prizeCardsTaken) :
    md.winCondition = WinCondition.prizes ∧
      ((md.winner = md.players.1.username ∧ 6 ≤ s1.prizeCardsTaken) ∨
       (md.winner = md.players.2.username ∧ 6 ≤ s2.prizeCardsTaken)) := by
  obtain ⟨setup, c1, hsetup, hmd⟩ := parseLog_success_inversion logText md h
  set tr := parseTurns ((splitLogIntoLines logText).drop setup.setupEndIndex)
    setup.players c1 with htr
  obtain ⟨hev, hpl, hstats⟩ := buildMatchData_projections setup tr
  obtain ⟨_, _, hiff, hwin⟩ :=
    parseTurns_spec ((splitLogIntoLines logText).drop setup.setupEndIndex)
      setup.players c1
  rw [← htr] at hiff hwin
  have hwnone : tr.winner = none := by
    cases hw : tr.winner with
    | none => rfl
    | some w =>
      obtain ⟨e, he, hety⟩ := hwin w hw
      have : e ∈ md.events := by
        rw [hmd, hev]
        exact List.mem_append_right _ he
      exact absurd hety (hnowin e this)
  have hwcnone : tr.winCondition = none := hiff.mp hwnone
  have hkey := buildMatchData_winner_of_none setup tr hwnone hwcnone
  -- translate the statistics hypotheses to the pre-backfill statistics
  have hs1 : (slookup (calculateStatistics (setup.events ++ tr.events)
      (setup.players.1.username, setup.players.2.username))
      setup.players.1.username).map PlayerStatistics.prizeCardsTaken =
      some s1.prizeCardsTaken := by
    rw [← slookup_updateTurnsPlayed_prizes tr.turns]
    rw [← hstats, ← hpl, ← hmd, h1]
    rfl
  have hs2 : (slookup (calculateStatistics (setup.events ++ tr.events)
      (setup.players.1.username, setup.players.2.username))
      setup.players.2.username).map PlayerStatistics.prizeCardsTaken =
      some s2.prizeCardsTaken := by
    rw [← slookup_updateTurnsPlayed_prizes tr.turns]
    rw [← hstats, ← hpl, ← hmd, h2]
    rfl
  rw [hs1, hs2] at hkey
  simp only [Option.getD_some] at hkey
  rw [hmd]
  by_cases hc1 : 6 ≤ s1.prizeCardsTaken
  · rw [if_pos hc1] at hkey
    have hwinner : (buildMatchData setup tr).winner = setup.players.1.username :=
      congrArg Prod.fst hkey
    have hcond : (buildMatchData setup tr).winCondition = WinCondition.prizes :=
      congrArg Prod.snd hkey
    exact ⟨hcond, Or.inl ⟨by rw [hwinner, hpl], hc1⟩⟩
  · rw [if_neg hc1] at hkey
    have hc2 : 6 ≤ s2.prizeCardsTaken := hth.resolve_left hc1
    rw [if_pos hc2] at hkey
    have hwinner : (buildMatchData setup tr).winner = setup.players.2.username :=
      congrArg Prod.fst hkey
    have hcond : (buildMatchData setup tr).winCondition = WinCondition.prizes :=
      congrArg Prod.snd hkey
    exact ⟨hcond, Or.inr ⟨by rw [hwinner, hpl], hc2⟩⟩

/-- C10: in a successful parse with no `win` event and both players below
the 6-prize threshold, the winner defaults to the literal string
`"Unknown"` and the win condition to `prizes`. -/
theorem c10_unknown_winner_default (logText : String) (md : MatchData)
    (h : parseLog logText = ParseResult.success md)
    (hnowin : ∀ e ∈ md.events, e.type ≠ EventType.win)
    (s1 s2 : PlayerStatistics)
    (h1 : slookup md.statistics md.players.1.username = some s1)
    (h2 : slookup md.statistics md.players.2.username = some s2)
    (hlt1 : s1.prizeCardsTaken < 6) (hlt2 : s2.prizeCardsTaken < 6) :
    md.winner = "Unknown" ∧ md.winCondition = WinCondition.prizes := by
  obtain ⟨setup, c1, hsetup, hmd⟩ := parseLog_success_inversion logText md h
  set tr := parseTurns ((splitLogIntoLines logText).drop setup.setupEndIndex)
    setup.players c1 with htr
  obtain ⟨hev, hpl, hstats⟩ := buildMatchData_projections setup tr
  obtain ⟨_, _, hiff, hwin⟩ :=
    parseTurns_spec ((splitLogIntoLines logText).drop setup.setupEndIndex)
      setup.players c1
  rw [← htr] at hiff hwin
  have hwnone : tr.winner = none := by
    cases hw : tr.winner with
    | none => rfl
    | some w =>
      obtain ⟨e, he, hety⟩ := hwin w hw
      have : e ∈ md.events := by
        rw [hmd, hev]
        exact List.mem_append_right _ he
      exact absurd hety (hnowin e this)
  have hwcnone : tr.winCondition = none := hiff.mp hwnone
  have hkey := buildMatchData_winner_of_none setup tr hwnone hwcnone
  have hs1 : (slookup (calculateStatistics (setup.events ++ tr.events)
      (setup.players.1.username, setup.players.2.username))
      setup.players.1.username).map PlayerStatistics.prizeCardsTaken =
      some s1.prizeCardsTaken := by
    rw [← slookup_updateTurnsPlayed_prizes tr.turns]
    rw [← hstats, ← hpl, ← hmd, h1]
    rfl
  have hs2 : (slookup (calculateStatistics (setup.events ++ tr.events)
      (setup.players.1.username, setup.players.2.username))
      setup.players.2.username).map PlayerStatistics.prizeCardsTaken =
      some s2.prizeCardsTaken := by
    rw [← slookup_updateTurnsPlayed_prizes tr.turns]
    rw [← hstats, ← hpl, ← hmd, h2]
    rfl
  rw [hs1, hs2] at hkey
  simp only [Option.getD_some] at hkey
  rw [if_neg (by omega), if_neg (by omega)] at hkey
  rw [hmd]
  exact ⟨congrArg Prod.fst hkey, congrArg Prod.snd hkey⟩

end TcgLogs
namespace TcgLogs

/-- Six prize-card lines and no win event: Player1 reaches the prize
threshold. -/
def c9log : String :=
  "Setup\nPlayer1 chose heads for the opening coin flip.\nPlayer1 won the coin toss.\nPlayer1 decided to go first.\nPlayer1 drew 7 cards for the opening hand.\nPlayer2 drew 7 cards for the opening hand.\n[playerName]'s Turn\nPlayer1 took a Prize card.\nPlayer1 took a Prize card.\nPlayer1 took a Prize card.\nPlayer1 took a Prize card.\nPlayer1 took a Prize card.\nPlayer1 took a Prize card."

/-- C9 witness: on `c9log` the theorem applies (no win event, Player1 at
6 prizes) and the inferred winner is Player1 by prizes. -/
theorem c9_prize_winner_inference_witness :
    winnerOf (parseLog c9log) = some ("Player1", WinCondition.prizes) := by
  cases hsd : parseLog c9log with
  | failure e =>
    have his : (successData (parseLog c9log)).isSome = true := by decide
    rw [hsd] at his
    simp [successData] at his
  | success md =>
    have hmd : successData (parseLog c9log) = some md := by rw [hsd]; rfl
    have hfacts : ((successData (parseLog c9log)).elim true (fun mdX =>
        decide (∀ e ∈ mdX.events, e.type ≠ EventType.win) &&
        (mdX.players.1.username == "Player1") &&
        ((slookup mdX.statistics mdX.players.1.username).elim false
          (fun s => decide (6 ≤ s.prizeCardsTaken))) &&
        ((slookup mdX.statistics mdX.players.2.username).elim false
          (fun s => decide (s.prizeCardsTaken < 6))))) = true := by decide
    rw [hmd] at hfacts
    simp only [Option.elim, Bool.and_eq_true, decide_eq_true_eq, beq_iff_eq] at hfacts
    obtain ⟨⟨⟨hnowin, hp1name⟩, hs1b⟩, hs2b⟩ := hfacts
    cases hs1 : slookup md.statistics md.players.1.username with
    | none => rw [hs1] at hs1b; simp at hs1b
    | some s1 =>
    cases hs2 : slookup md.statistics md.players.2.username with
    | none => rw [hs2] at hs2b; simp at hs2b
    | some s2 =>
    rw [hs1] at hs1b
    rw [hs2] at hs2b
    simp only [Option.elim, decide_eq_true_eq] at hs1b hs2b
    obtain ⟨hwc, hdisj⟩ := c9_prize_winner_inference c9log md hsd hnowin s1 s2
      hs1 hs2 (Or.inl hs1b)
    simp only [winnerOf, successData, Option.map]
    rcases hdisj with ⟨hw, _⟩ | ⟨_, h6⟩
    · rw [hw, hp1name, hwc]
    · exact absurd h6 (by omega)

/-- C10 witness: the Scenario-1 log has no win event and nobody at the
prize threshold, so the theorem yields winner `"Unknown"`, condition
`prizes`. -/
theorem c10_unknown_winner_default_witness :
    winnerOf (parseLog c1log) = some ("Unknown", WinCondition.prizes) := by
  cases hsd : parseLog c1log with
  | failure e =>
    have his : (successData (parseLog c1log)).isSome = true := by decide
    rw [hsd] at his
    simp [successData] at his
  | success md =>
    have hmd : successData (parseLog c1log) = some md := by rw [hsd]; rfl
    have hfacts : ((successData (parseLog c1log)).elim true (fun mdX =>
        decide (∀ e ∈ mdX.events, e.type ≠ EventType.win) &&
        ((slookup mdX.statistics mdX.players.1.username).elim false
          (fun s => decide (s.prizeCardsTaken < 6))) &&
        ((slookup mdX.statistics mdX.players.2.username).elim false
          (fun s => decide (s.prizeCardsTaken < 6))))) = true := by decide
    rw [hmd] at hfacts
    simp only [Option.elim, Bool.and_eq_true, decide_eq_true_eq] at hfacts
    obtain ⟨⟨hnowin, hs1b⟩, hs2b⟩ := hfacts
    cases hs1 : slookup md.statistics md.players.1.username with
    | none => rw [hs1] at hs1b; simp at hs1b
    | some s1 =>
    cases hs2 : slookup md.statistics md.players.2.username with
    | none => rw [hs2] at hs2b; simp at hs2b
    | some s2 =>
    rw [hs1] at hs1b
    rw [hs2] at hs2b
    simp only [Option.elim, decide_eq_true_eq] at hs1b hs2b
    obtain ⟨hw, hwc⟩ := c10_unknown_winner_default c1log md hsd hnowin s1 s2
      hs1 hs2 hs1b hs2b
    simp only [winnerOf, successData, Option.map]
    rw [hw, hwc]

end TcgLogs

namespace TcgLogs

/-! ## Claim C4: the 4-copy cap -/

/-- Invariant of the extraction map: records are stored under their own
name, and any record whose name is not shaped like a basic energy has at
most 4 copies. -/
def CapInv (m : CardMap) : Prop :=
  ∀ e ∈ m, (e : String × ExtractedCard).2.name = e.1 ∧
    (isBasicEnergy e.2.name = false → e.2.count ≤ 4)

theorem addOrUpdateCard_cap (m : CardMap) (name : String)
    (category : CardCategory) (subcategory : Option Subcategory)
    (confidence : Confidence) (efInfo : Option String)
    (hbasic : category = .energy ∧ subcategory = some .basic →
      isBasicEnergy name = true)
    (h : CapInv m) :
    CapInv (addOrUpdateCard m name category subcategory confidence efInfo) := by
  unfold addOrUpdateCard
  cases hl : slookup m name with
  | none =>
    intro e he
    simp only [List.mem_append, List.mem_singleton] at he
    rcases he with he | he
    · exact h e he
    · subst he
      refine ⟨rfl, fun _ => ?_⟩
      show (1:Nat) ≤ 4
      omega
  | some existing0 =>
    intro e he
    simp only [List.mem_map] at he
    obtain ⟨⟨k0, c0⟩, hmem, hmap⟩ := he
    obtain ⟨hname0, hcap0⟩ := h _ hmem
    by_cases hk : k0 = name
    · rw [if_pos hk] at hmap
      subst hmap
      constructor
      · -- the stored name is never rewritten by an update
        dsimp only at hname0 ⊢
        split <;> (try split) <;> (try split) <;> simp_all
      · intro hnb
        dsimp only at hnb hname0 hcap0 ⊢
        have hnbn : isBasicEnergy name = false := by
          -- the record's (unchanged) name is the key
          revert hnb
          split <;> (try split) <;> (try split) <;> simp_all
        have hnotbasic : ¬ (category = CardCategory.energy ∧ subcategory = some Subcategory.basic) := by
          intro hc
          rw [hbasic hc] at hnbn
          exact absurd hnbn (by simp)
        revert hnb
        split
        · rename_i hcond
          rcases hcond with hcond | hcond
          · exact absurd hcond hnotbasic
          · have hle : c0.count + 1 ≤ 4 := by omega
            split <;> (try split) <;> intro _ <;> simp_all
        · split <;> (try split) <;> intro _ <;> simp_all
    · rw [if_neg hk] at hmap
      subst hmap
      exact ⟨hname0, hcap0⟩

/-- `categorizeCard` only ever classifies a card as basic energy when its
name matches the basic-energy pattern. -/
theorem categorizeCard_basic (name : String) (ty : EventType)
    (tc : Option Subcategory)
    (h1 : (categorizeCard name ty tc).1 = .energy)
    (h2 : (categorizeCard name ty tc).2 = some .basic) :
    isBasicEnergy name = true := by
  unfold categorizeCard at h1 h2
  cases ty <;> simp_all <;> split_ifs at h1 h2 <;> simp_all

theorem drawFold_cap (names : List String) (m : CardMap) (h : CapInv m) :
    CapInv (names.foldl
      (fun cardMap cardName =>
        let (category, subcategory) := categorizeCard cardName .draw
        addOrUpdateCard cardMap cardName category subcategory .confirmed)
      m) := by
  induction names generalizing m with
  | nil => exact h
  | cons n ns ih =>
    simp only [List.foldl_cons]
    apply ih
    cases hcs : categorizeCard n .draw with
    | mk c s =>
      dsimp only
      apply addOrUpdateCard_cap
      · intro hc
        refine categorizeCard_basic n .draw none ?_ ?_
        · rw [hcs]; exact hc.1
        · rw [hcs]; exact hc.2
      · exact h

theorem extractFromEvent_cap (m : CardMap) (ev : GameEvent) (h : CapInv m) :
    CapInv (extractFromEvent m ev) := by
  unfold extractFromEvent
  cases htyp : ev.type <;> dsimp only
  case play_pokemon =>
    cases ev.details.pokemonName with
    | none => exact h
    | some n =>
      dsimp only
      split
      · exact addOrUpdateCard_cap _ _ _ _ _ _ (by intro hc; simp at hc) h
      · exact h
  case evolve =>
    have hinner : ∀ efi : Option String,
        CapInv (match ev.details.pokemonName with
          | some evolvedPokemon =>
            if evolvedPokemon ≠ "" then
              addOrUpdateCard m evolvedPokemon .pokemon none .confirmed efi
            else m
          | none => m) := by
      intro efi
      cases ev.details.pokemonName with
      | none => exact h
      | some n =>
        dsimp only
        split
        · exact addOrUpdateCard_cap _ _ _ _ _ _ (by intro hc; simp at hc) h
        · exact h
    cases ev.details.evolvedFrom with
    | none => exact hinner none
    | some b =>
      dsimp only
      split
      · exact addOrUpdateCard_cap _ _ _ _ _ _ (by intro hc; simp at hc)
          (hinner (some b))
      · exact hinner (some b)
  case play_trainer =>
    cases ev.details.trainerName with
    | none => exact h
    | some n =>
      dsimp only
      split
      · exact addOrUpdateCard_cap _ _ _ _ _ _ (by intro hc; simp at hc) h
      · exact h
  case attach_energy =>
    cases attachedNameFromDescription ev.description with
    | none => exact h
    | some n =>
      dsimp only
      apply addOrUpdateCard_cap
      · intro hc
        by_cases hb : isBasicEnergy n
        · exact hb
        · rw [if_neg hb] at hc
          exact absurd hc.2 (by simp)
      · exact h
  case draw =>
    cases ev.details.cardNames with
    | none => exact h
    | some names =>
      dsimp only
      split
      · exact drawFold_cap names m h
      · exact h
  case use_ability => exact h
  case attack => exact h
  case knockout => exact h
  case prize_taken => exact h
  case switch => exact h
  case coin_flip => exact h
  case mulligan => exact h
  case win => exact h

theorem extractFold_cap (events : List GameEvent) (p : String) (m : CardMap)
    (h : CapInv m) :
    CapInv (events.foldl
      (fun cardMap event =>
        if event.player ≠ p then cardMap else extractFromEvent cardMap event)
      m) := by
  induction events generalizing m with
  | nil => exact h
  | cons ev evs ih =>
    simp only [List.foldl_cons]
    apply ih
    split
    · exact h
    · exact extractFromEvent_cap _ _ h

theorem extractCardsFromEvents_cap (events : List GameEvent) (p : String) :
    CapInv (extractCardsFromEvents events p) :=
  extractFold_cap events p []
    (fun e he => absurd he (List.not_mem_nil e))

/-- Inversion for `Option`-valued `mapM`: every output element comes from
some input element. -/
theorem mapM_mem {α β : Type} (f : α → Option β) :
    ∀ (l : List α) (lo : List β), l.mapM f = some lo →
      ∀ b ∈ lo, ∃ a ∈ l, f a = some b := by
  intro l
  induction l with
  | nil =>
    intro lo hb b hmem
    simp only [List.mapM_nil, pure] at hb
    cases hb
    cases hmem
  | cons a as ih =>
    intro lo hb b hmem
    rw [List.mapM_cons] at hb
    cases hfa : f a with
    | none => rw [hfa] at hb; cases hb
    | some b0 =>
      rw [hfa] at hb
      cases hrest : as.mapM f with
      | none =>
        rw [hrest] at hb
        cases hb
      | some bs =>
        rw [hrest] at hb
        simp only [Option.bind_eq_bind, Option.some_bind, Option.pure_def] at hb
        cases hb
        cases hmem with
        | head => exact ⟨a, List.mem_cons_self a as, hfa⟩
        | tail _ hmem =>
          obtain ⟨b1, hb1, hfb1⟩ := ih bs hrest b hmem
          exact ⟨b1, List.mem_cons_of_mem a hb1, hfb1⟩

/-- `buildEvolutionRelationships` only rewrites `evolutionStage` and
`evolvesFrom`: every output record keeps its source record's name and
count. -/
theorem buildEvolutionRelationships_count (events : List GameEvent)
    (m mo : CardMap) (h : buildEvolutionRelationships events m = some mo)
    (eo : String × ExtractedCard) (heo : eo ∈ mo) :
    ∃ e ∈ m, eo.2.name = e.2.name ∧ eo.2.count = e.2.count := by
  simp only [buildEvolutionRelationships] at h
  obtain ⟨e, hem, hfe⟩ := mapM_mem _ m mo h eo heo
  refine ⟨e, hem, ?_⟩
  obtain ⟨k, card⟩ := e
  dsimp only at hfe
  split at hfe
  · cases hfe
    exact ⟨rfl, rfl⟩
  · cases hcw : chainWalk (buildEvolutionChains events)
        (buildEvolutionChains events).length k with
    | none =>
      rw [hcw] at hfe
      cases hfe
    | some st =>
      rw [hcw] at hfe
      simp only [Option.bind_eq_bind, Option.some_bind, Option.pure_def] at hfe
      cases hsl : slookup (buildEvolutionChains events) k with
      | none =>
        rw [hsl] at hfe
        cases hfe
        exact ⟨rfl, rfl⟩
      | some base =>
        rw [hsl] at hfe
        cases hfe
        exact ⟨rfl, rfl⟩

/-- The cap carried to the assembled deck of one player. -/
theorem deck_cards_cap (events : List GameEvent) (u : String) (mo : CardMap)
    (h : buildEvolutionRelationships events
      (extractCardsFromEvents events u) = some mo)
    (card : DeckCard) (hc : card ∈ (buildReconstructedDeck u mo).cards)
    (hb : isBasicEnergy card.name = false) : card.count ≤ 4 := by
  have hcm : card ∈ toDeckCards mo := hc
  simp only [toDeckCards, List.mem_map] at hcm
  obtain ⟨⟨k, ec⟩, hmem, hcard⟩ := hcm
  have hnm : card.name = ec.name := by rw [← hcard]
  have hct : card.count = ec.count := by rw [← hcard]
  obtain ⟨e0, he0, hn0, hc0⟩ :=
    buildEvolutionRelationships_count events _ mo h (k, ec) hmem
  have hcap := (extractCardsFromEvents_cap events u e0 he0).2
  rw [hct, hc0]
  apply hcap
  rw [← hn0, ← hnm]
  exact hb

/-- Inversion of `reconstructDecks`. -/
theorem reconstructDecks_inv (md : MatchData) (decks : PlayerDecks)
    (h : reconstructDecks md = some decks) :
    ∃ m1 m2,
      buildEvolutionRelationships md.events
        (extractCardsFromEvents md.events md.players.1.username) = some m1 ∧
      buildEvolutionRelationships md.events
        (extractCardsFromEvents md.events md.players.2.username) = some m2 ∧
      decks = deckUpsert
        (deckUpsert [] md.players.1.username
          (buildReconstructedDeck md.players.1.username m1))
        md.players.2.username
        (buildReconstructedDeck md.players.2.username m2) := by
  simp only [reconstructDecks, Option.bind_eq_bind, Option.pure_def] at h
  cases h1 : buildEvolutionRelationships md.events
      (extractCardsFromEvents md.events md.players.1.username) with
  | none => rw [h1] at h; cases h
  | some m1 =>
    rw [h1] at h
    simp only [Option.some_bind] at h
    cases h2 : buildEvolutionRelationships md.events
        (extractCardsFromEvents md.events md.players.2.username) with
    | none => rw [h2] at h; cases h
    | some m2 =>
      rw [h2] at h
      simp only [Option.some_bind] at h
      cases h
      exact ⟨m1, m2, rfl, rfl, rfl⟩

theorem slookup_two_upserts (u1 u2 p : String) (d1 d2 v : ReconstructedDeck)
    (h : slookup (deckUpsert (deckUpsert [] u1 d1) u2 d2) p = some v) :
    v = d1 ∨ v = d2 := by
  simp only [deckUpsert] at h
  by_cases hu : u1 = u2
  · rw [if_pos hu] at h
    simp only [slookup] at h
    split at h <;> simp_all
  · rw [if_neg hu] at h
    simp only [slookup] at h
    split at h
    · simp_all
    · split at h <;> simp_all

/-- C4: in every deck produced by `reconstructDecks`, every `DeckCard`
whose name is not basic-energy shaped has count at most 4; basic energy is
uncapped, and on Scenario 3 (`c4md`) the non-basic "Ultra Ball", observed
6 times, ends with count 4, while "Basic Water Energy", observed 5 times,
ends with count 5. -/
theorem c4_count_cap :
    (∀ (md : MatchData) (decks : PlayerDecks) (p : String)
       (deck : ReconstructedDeck) (card : DeckCard),
       reconstructDecks md = some decks →
       slookup decks p = some deck →
       card ∈ deck.cards →
       isBasicEnergy card.name = false →
       card.count ≤ 4) ∧
    ((reconstructDecks c4md).bind (fun ds => slookup ds "P1")).map
        (fun d => d.cards.map (fun c => (c.name, c.count))) =
      some [("Ultra Ball", 4), ("Basic Water Energy", 5)] ∧
    isBasicEnergy "Ultra Ball" = false ∧
    isBasicEnergy "Basic Water Energy" = true := by
  refine ⟨?_, by decide, by decide, by decide⟩
  intro md decks p deck card hrd hlk hc hb
  obtain ⟨m1, m2, h1, h2, hdecks⟩ := reconstructDecks_inv md decks hrd
  subst hdecks
  rcases slookup_two_upserts _ _ _ _ _ _ hlk with hd | hd <;> subst hd
  · exact deck_cards_cap md.events _ m1 h1 card hc hb
  · exact deck_cards_cap md.events _ m2 h2 card hc hb

/-- C4 witness: the cap theorem applied to every card of the concrete
Scenario-3 deck. -/
theorem c4_count_cap_witness :
    ((reconstructDecks c4md).bind (fun ds => slookup ds "P1")).elim False
      (fun d => ∀ c ∈ d.cards, isBasicEnergy c.name = false → c.count ≤ 4) := by
  cases hrd : reconstructDecks c4md with
  | none =>
    have hs : (reconstructDecks c4md).isSome = true := by decide
    rw [hrd] at hs
    simp at hs
  | some decks =>
    rw [show (some decks).bind (fun ds => slookup ds "P1") =
      slookup decks "P1" from rfl]
    cases hlk : slookup decks "P1" with
    | none =>
      have hs : ((reconstructDecks c4md).bind
          (fun ds => slookup ds "P1")).isSome = true := by decide
      rw [hrd] at hs
      rw [show (some decks).bind (fun ds => slookup ds "P1") =
        slookup decks "P1" from rfl, hlk] at hs
      simp at hs
    | some d =>
      intro c hcmem hcb
      exact c4_count_cap.1 c4md decks "P1" d c hrd hlk hcmem hcb

end TcgLogs

namespace TcgLogs

/-! ## Claim C3 (amended): pipeline facts feeding the evolution sort -/

/-- One step of `buildEvolutionChains`' fold, named for the proofs. -/
def chainStep (chains : List (String × String)) (event : GameEvent) :
    List (String × String) :=
  if event.type = .evolve then
    match event.details.pokemonName, event.details.evolvedFrom with
    | some evolved, some base =>
      if evolved ≠ "" ∧ base ≠ "" then
        buildEvolutionChains.chainSet chains evolved base
      else chains
    | _, _ => chains
  else chains

theorem buildEvolutionChains_eq (events : List GameEvent) :
    buildEvolutionChains events = events.foldl chainStep [] := rfl

theorem slookup_chainSet_self (chains : List (String × String)) (k v : String) :
    slookup (buildEvolutionChains.chainSet chains k v) k = some v := by
  induction chains with
  | nil => simp [buildEvolutionChains.chainSet, slookup]
  | cons e rest ih =>
    obtain ⟨k0, v0⟩ := e
    by_cases h : k0 = k
    · subst h
      simp [buildEvolutionChains.chainSet, slookup]
    · simp [buildEvolutionChains.chainSet, slookup, h, ih]

theorem slookup_chainSet_isSome (chains : List (String × String))
    (k k' v : String) (h : (slookup chains k').isSome = true) :
    (slookup (buildEvolutionChains.chainSet chains k v) k').isSome = true := by
  by_cases hk : k = k'
  · subst hk
    simp [slookup_chainSet_self]
  · induction chains with
    | nil => simp [slookup] at h
    | cons e rest ih =>
      obtain ⟨k0, v0⟩ := e
      simp only [buildEvolutionChains.chainSet]
      by_cases h0 : k0 = k
      · subst h0
        simp only [if_pos rfl]
        simp only [slookup] at h ⊢
        rw [if_neg hk] at h ⊢
        exact h
      · rw [if_neg h0]
        simp only [slookup] at h ⊢
        by_cases h0k : k0 = k'
        · rw [if_pos h0k] at h ⊢
          exact h
        · rw [if_neg h0k] at h ⊢
          exact ih h

theorem chainStep_isSome_mono (chains : List (String × String))
    (ev : GameEvent) (k : String) (h : (slookup chains k).isSome = true) :
    (slookup (chainStep chains ev) k).isSome = true := by
  unfold chainStep
  split
  · split
    · split
      · exact slookup_chainSet_isSome _ _ _ _ h
      · exact h
    · exact h
  · exact h

theorem chainsFold_isSome_mono (evs : List GameEvent)
    (acc : List (String × String)) (k : String)
    (h : (slookup acc k).isSome = true) :
    (slookup (evs.foldl chainStep acc) k).isSome = true := by
  induction evs generalizing acc with
  | nil => exact h
  | cons e rest ih => exact ih _ (chainStep_isSome_mono _ _ _ h)

theorem chainsFold_hasKey (evs : List GameEvent) (ev : GameEvent)
    (hev : ev ∈ evs) (ht : ev.type = .evolve) (k b : String)
    (hk : ev.details.pokemonName = some k) (hb : ev.details.evolvedFrom = some b)
    (hk0 : k ≠ "") (hb0 : b ≠ "") :
    ∀ acc, (slookup (evs.foldl chainStep acc) k).isSome = true := by
  induction evs with
  | nil => cases hev
  | cons e rest ih =>
    intro acc
    simp only [List.foldl_cons]
    rcases List.mem_cons.mp hev with he | he
    · subst he
      apply chainsFold_isSome_mono
      unfold chainStep
      rw [if_pos ht]
      simp only [hk, hb]
      rw [if_pos ⟨hk0, hb0⟩]
      simp [slookup_chainSet_self]
    · exact ih he _

theorem chains_hasKey (events : List GameEvent) (ev : GameEvent)
    (hev : ev ∈ events) (ht : ev.type = .evolve) (k b : String)
    (hk : ev.details.pokemonName = some k) (hb : ev.details.evolvedFrom = some b)
    (hk0 : k ≠ "") (hb0 : b ≠ "") :
    (slookup (buildEvolutionChains events) k).isSome = true := by
  rw [buildEvolutionChains_eq]
  exact chainsFold_hasKey events ev hev ht k b hk hb hk0 hb0 []

theorem slookup_none_not_mem {β : Type} (m : List (String × β)) (k : String)
    (h : slookup m k = none) : ∀ e ∈ m, e.1 ≠ k := by
  induction m with
  | nil => intro e he; cases he
  | cons e0 rest ih =>
    obtain ⟨k0, v0⟩ := e0
    intro e he
    simp only [slookup] at h
    split at h
    · cases h
    · rename_i hne
      rcases List.mem_cons.mp he with he | he
      · subst he
        exact hne
      · exact ih h e he

theorem map_fst_of_keyfix {β : Type} (m : List (String × β))
    (f : String × β → String × β) (hf : ∀ e, (f e).1 = e.1) :
    (m.map f).map Prod.fst = m.map Prod.fst := by
  induction m with
  | nil => rfl
  | cons e rest ih => simp [hf, ih]

/-- Extraction-map invariant for the ordering proof: pairwise-distinct
keys, each record stored under its own name, and a record with a truthy
`evolvesFrom` has its key in the chain map. -/
def ChainInv (events : List GameEvent) (m : CardMap) : Prop :=
  (m.map Prod.fst).Nodup ∧
  ∀ e ∈ m, (e : String × ExtractedCard).2.name = e.1 ∧
    (strTruthy e.2.evolvesFrom = true →
      (slookup (buildEvolutionChains events) e.1).isSome = true)

theorem addOrUpdateCard_chain (events : List GameEvent) (m : CardMap)
    (name : String) (category : CardCategory) (subcategory : Option Subcategory)
    (confidence : Confidence) (efInfo : Option String)
    (hef : strTruthy efInfo = true →
      (slookup (buildEvolutionChains events) name).isSome = true)
    (h : ChainInv events m) :
    ChainInv events
      (addOrUpdateCard m name category subcategory confidence efInfo) := by
  obtain ⟨hkeys, hrec⟩ := h
  unfold addOrUpdateCard
  cases hl : slookup m name with
  | none =>
    constructor
    · rw [List.map_append]
      rw [List.nodup_append]
      refine ⟨hkeys, List.nodup_singleton _, ?_⟩
      intro a ha hb
      simp only [List.map_cons, List.map_nil, List.mem_singleton] at hb
      subst hb
      simp only [List.mem_map] at ha
      obtain ⟨e, hem, he1⟩ := ha
      exact slookup_none_not_mem m _ hl e hem he1
    · intro e he
      simp only [List.mem_append, List.mem_singleton] at he
      rcases he with he | he
      · exact hrec e he
      · subst he
        exact ⟨rfl, hef⟩
  | some existing0 =>
    constructor
    · rw [map_fst_of_keyfix]
      · exact hkeys
      · intro e
        obtain ⟨k, c⟩ := e
        dsimp only
        split <;> rfl
    · intro e he
      simp only [List.mem_map] at he
      obtain ⟨⟨k0, c0⟩, hmem, hmap⟩ := he
      obtain ⟨hname0, hchain0⟩ := hrec _ hmem
      by_cases hk : k0 = name
      · rw [if_pos hk] at hmap
        subst hmap
        rw [hk] at hchain0
        constructor
        · dsimp only at hname0 ⊢
          split <;> (try split) <;> (try split) <;> simp_all
        · have hcase : ∀ (c : ExtractedCard),
              c.evolvesFrom = c0.evolvesFrom ∨ c.evolvesFrom = efInfo →
              strTruthy c.evolvesFrom = true →
              (slookup (buildEvolutionChains events) name).isSome = true := by
            intro c hc htr
            rcases hc with hc | hc
            · rw [hc] at htr
              exact hchain0 htr
            · rw [hc] at htr
              exact hef htr
          intro htr
          dsimp only at htr ⊢
          rw [hk]
          refine hcase _ ?_ htr
          -- the final record keeps the old evolvesFrom or takes efInfo
          split <;> (try split) <;> (try split) <;>
            first
            | (left; rfl)
            | (right; rfl)
      · rw [if_neg hk] at hmap
        subst hmap
        exact ⟨hname0, hchain0⟩

end TcgLogs

namespace TcgLogs

theorem addPokemonOpt_chain (events : List GameEvent) (mi : CardMap)
    (hmi : ChainInv events mi) (o : Option String) :
    ChainInv events (match o with
      | some basePokemon =>
        if basePokemon ≠ "" then
          addOrUpdateCard mi basePokemon .pokemon none .confirmed
        else mi
      | none => mi) := by
  cases o with
  | none => exact hmi
  | some b =>
    dsimp only
    split
    · exact addOrUpdateCard_chain _ _ _ _ _ _ _
        (fun htr => absurd htr (by decide)) hmi
    · exact hmi

theorem drawFold_chain (events : List GameEvent) (names : List String)
    (m : CardMap) (h : ChainInv events m) :
    ChainInv events (names.foldl
      (fun cardMap cardName =>
        let (category, subcategory) := categorizeCard cardName .draw
        addOrUpdateCard cardMap cardName category subcategory .confirmed)
      m) := by
  induction names generalizing m with
  | nil => exact h
  | cons n ns ih =>
    simp only [List.foldl_cons]
    apply ih
    cases hcs : categorizeCard n .draw with
    | mk c s =>
      dsimp only
      exact addOrUpdateCard_chain _ _ _ _ _ _ _
        (fun htr => absurd htr (by decide)) h

theorem extractFromEvent_chain (events : List GameEvent) (ev : GameEvent)
    (hev : ev ∈ events) (m : CardMap) (h : ChainInv events m) :
    ChainInv events (extractFromEvent m ev) := by
  unfold extractFromEvent
  cases htyp : ev.type <;> dsimp only
  case play_pokemon =>
    cases ev.details.pokemonName with
    | none => exact h
    | some n =>
      dsimp only
      split
      · exact addOrUpdateCard_chain _ _ _ _ _ _ _
          (fun htr => absurd htr (by decide)) h
      · exact h
  case evolve =>
    have hinner : ChainInv events (match ev.details.pokemonName with
        | some evolvedPokemon =>
          if evolvedPokemon ≠ "" then
            addOrUpdateCard m evolvedPokemon .pokemon none .confirmed
              ev.details.evolvedFrom
          else m
        | none => m) := by
      cases hpn : ev.details.pokemonName with
      | none => exact h
      | some n =>
        dsimp only
        split
        · rename_i hne
          apply addOrUpdateCard_chain
          · intro htr
            cases hb : ev.details.evolvedFrom with
            | none =>
              rw [hb] at htr
              exact absurd htr (by decide)
            | some b =>
              rw [hb] at htr
              have hbne : b ≠ "" := by simpa [strTruthy] using htr
              exact chains_hasKey events ev hev htyp n b hpn hb hne hbne
          · exact h
        · exact h
    exact addPokemonOpt_chain events _ hinner ev.details.evolvedFrom
  case play_trainer =>
    cases ev.details.trainerName with
    | none => exact h
    | some n =>
      dsimp only
      split
      · exact addOrUpdateCard_chain _ _ _ _ _ _ _
          (fun htr => absurd htr (by decide)) h
      · exact h
  case attach_energy =>
    cases attachedNameFromDescription ev.description with
    | none => exact h
    | some n =>
      dsimp only
      exact addOrUpdateCard_chain _ _ _ _ _ _ _
        (fun htr => absurd htr (by decide)) h
  case draw =>
    cases ev.details.cardNames with
    | none => exact h
    | some names =>
      dsimp only
      split
      · exact drawFold_chain events names m h
      · exact h
  case use_ability => exact h
  case attack => exact h
  case knockout => exact h
  case prize_taken => exact h
  case switch => exact h
  case coin_flip => exact h
  case mulligan => exact h
  case win => exact h

theorem extractFold_chain (events : List GameEvent) (p : String) :
    ∀ (todo : List GameEvent), (∀ e ∈ todo, e ∈ events) →
      ∀ (m : CardMap), ChainInv events m →
      ChainInv events (todo.foldl
        (fun cardMap event =>
          if event.player ≠ p then cardMap
          else extractFromEvent cardMap event)
        m) := by
  intro todo
  induction todo with
  | nil =>
    intro _ m h
    exact h
  | cons ev evs ih =>
    intro hsub m h
    simp only [List.foldl_cons]
    refine ih (fun e he => hsub e (List.mem_cons_of_mem _ he)) _ ?_
    split
    · exact h
    · exact extractFromEvent_chain events ev (hsub ev (List.mem_cons_self _ _)) m h

theorem extractCardsFromEvents_chain (events : List GameEvent) (p : String) :
    ChainInv events (extractCardsFromEvents events p) := by
  unfold extractCardsFromEvents
  refine extractFold_chain events p events (fun e he => he) [] ?_
  constructor
  · simp
  · intro e he
    cases he

/-- `mapM` over `Option` succeeds exactly pointwise. -/
theorem mapM_forall2 {α β : Type} (f : α → Option β) :
    ∀ (l : List α) (lo : List β), l.mapM f = some lo →
      List.Forall₂ (fun a b => f a = some b) l lo := by
  intro l
  induction l with
  | nil =>
    intro lo h
    simp only [List.mapM_nil, pure] at h
    cases h
    exact List.Forall₂.nil
  | cons a as ih =>
    intro lo h
    rw [List.mapM_cons] at h
    cases hfa : f a with
    | none =>
      rw [hfa] at h
      cases h
    | some b0 =>
      rw [hfa] at h
      cases hrest : as.mapM f with
      | none =>
        rw [hrest] at h
        cases h
      | some bs =>
        rw [hrest] at h
        simp only [Option.bind_eq_bind, Option.some_bind, Option.pure_def] at h
        cases h
        exact List.Forall₂.cons hfa (ih bs hrest)

theorem forall2_mem_right {α β : Type} {R : α → β → Prop} :
    ∀ {l : List α} {lo : List β}, List.Forall₂ R l lo →
      ∀ b ∈ lo, ∃ a ∈ l, R a b := by
  intro l lo h
  induction h with
  | nil =>
    intro b hb
    cases hb
  | cons hab _ ih =>
    intro b hb
    cases hb with
    | head => exact ⟨_, List.mem_cons_self _ _, hab⟩
    | tail _ hb =>
      obtain ⟨a, ha, hr⟩ := ih b hb
      exact ⟨a, List.mem_cons_of_mem _ ha, hr⟩

theorem forall2_map {α β γ : Type} {R : α → β → Prop} {f : α → γ} {g : β → γ}
    (hfg : ∀ a b, R a b → g b = f a) :
    ∀ {l : List α} {lo : List β}, List.Forall₂ R l lo →
      lo.map g = l.map f := by
  intro l lo h
  induction h with
  | nil => rfl
  | cons hab _ ih => simp [hfg _ _ hab, ih]

theorem chainWalk_zero (chains : List (String × String)) (fuel : Nat)
    (k : String) (h : chainWalk chains fuel k = some 0) :
    slookup chains k = none := by
  cases hsl : slookup chains k with
  | none => rfl
  | some next =>
    unfold chainWalk at h
    rw [hsl] at h
    cases fuel with
    | zero => cases h
    | succ f =>
      rw [Option.map_eq_some'] at h
      obtain ⟨y, _, hy⟩ := h
      omega

/-- What one `buildEvolutionRelationships` output entry guarantees about
its source entry: same key, name and category, and a stage-0 Pokemon has
no chain-map entry and an unchanged `evolvesFrom`. -/
def EvoRel (events : List GameEvent) (e eo : String × ExtractedCard) : Prop :=
  eo.1 = e.1 ∧ eo.2.name = e.2.name ∧ eo.2.category = e.2.category ∧
  (e.2.category = .pokemon →
    (∃ st, eo.2.evolutionStage = some st) ∧
    (eo.2.evolutionStage = some 0 →
      slookup (buildEvolutionChains events) e.1 = none ∧
      eo.2.evolvesFrom = e.2.evolvesFrom))

theorem buildEvolutionRelationships_rel (events : List GameEvent)
    (m mo : CardMap) (h : buildEvolutionRelationships events m = some mo) :
    List.Forall₂ (EvoRel events) m mo := by
  simp only [buildEvolutionRelationships] at h
  refine (mapM_forall2 _ m mo h).imp ?_
  intro e eo hfe
  obtain ⟨k, card⟩ := e
  dsimp only at hfe
  split at hfe
  · rename_i hcat
    cases hfe
    exact ⟨rfl, rfl, rfl, fun hp => absurd hp hcat⟩
  · rename_i hcat
    cases hcw : chainWalk (buildEvolutionChains events)
        (buildEvolutionChains events).length k with
    | none =>
      rw [hcw] at hfe
      cases hfe
    | some st =>
      rw [hcw] at hfe
      simp only [Option.bind_eq_bind, Option.some_bind, Option.pure_def] at hfe
      cases hsl : slookup (buildEvolutionChains events) k with
      | none =>
        rw [hsl] at hfe
        cases hfe
        refine ⟨rfl, rfl, rfl, fun _ => ⟨⟨st, rfl⟩, fun hst0 => ⟨hsl, rfl⟩⟩⟩
      | some base =>
        rw [hsl] at hfe
        cases hfe
        refine ⟨rfl, rfl, rfl, fun _ => ⟨⟨st, rfl⟩, fun hst0 => ?_⟩⟩
        exfalso
        have hst : st = 0 := by
          simpa using hst0
        subst hst
        rw [chainWalk_zero _ _ _ hcw] at hsl
        cases hsl

end TcgLogs

namespace TcgLogs

/-- The Pokemon cards handed to `sortByEvolutionLine` by
`buildReconstructedDeck` have pairwise-distinct names, and a stage-0 card
among them has no truthy `evolvesFrom`. -/
theorem pokemonCards_facts (events : List GameEvent) (u : String)
    (mo : CardMap)
    (h : buildEvolutionRelationships events
      (extractCardsFromEvents events u) = some mo) :
    ((((toDeckCards mo).filter
        (fun c => c.category = CardCategory.pokemon)).map DeckCard.name).Nodup) ∧
    ∀ c ∈ (toDeckCards mo).filter (fun c => c.category = CardCategory.pokemon),
      c.evolutionStage = some 0 → strTruthy c.evolvesFrom = false := by
  obtain ⟨hkeys, hrec⟩ := extractCardsFromEvents_chain events u
  have hrel := buildEvolutionRelationships_rel events _ mo h
  have hnk : ∀ eo ∈ mo, (eo : String × ExtractedCard).2.name = eo.1 := by
    intro eo heo
    obtain ⟨e, hem, hr⟩ := forall2_mem_right hrel eo heo
    obtain ⟨h1, h2, _, _⟩ := hr
    rw [h2, (hrec e hem).1, h1]
  have hkeq : mo.map Prod.fst = (extractCardsFromEvents events u).map Prod.fst :=
    forall2_map (fun a b hr => hr.1) hrel
  have hnames : (toDeckCards mo).map DeckCard.name = mo.map Prod.fst := by
    unfold toDeckCards
    rw [List.map_map]
    refine List.map_congr_left (fun eo heo => ?_)
    obtain ⟨k, c⟩ := eo
    simp only [Function.comp]
    show c.name = k
    exact hnk _ heo
  have hnodup_all : ((toDeckCards mo).map DeckCard.name).Nodup := by
    rw [hnames, hkeq]
    exact hkeys
  constructor
  · exact List.Nodup.sublist ((List.filter_sublist _).map _) hnodup_all
  · intro c hc hst
    rw [List.mem_filter] at hc
    obtain ⟨hcm, hcat⟩ := hc
    have hcat2 : c.category = CardCategory.pokemon := by simpa using hcat
    unfold toDeckCards at hcm
    rw [List.mem_map] at hcm
    obtain ⟨⟨k, ec⟩, hmem, hcard⟩ := hcm
    obtain ⟨e, hem, hr⟩ := forall2_mem_right hrel (k, ec) hmem
    obtain ⟨h1, h2, h3, h4⟩ := hr
    have hcef : c.evolvesFrom = ec.evolvesFrom := by rw [← hcard]
    have hcst : c.evolutionStage = ec.evolutionStage := by rw [← hcard]
    have hccat : c.category = ec.category := by rw [← hcard]
    have hpok : e.2.category = CardCategory.pokemon := by
      rw [← h3, ← hccat]
      exact hcat2
    obtain ⟨⟨st, hsts⟩, h5⟩ := h4 hpok
    obtain ⟨hslnone, hefeq⟩ := h5 (by rw [← hcst]; exact hst)
    rw [hcef]
    have hefeq2 : ec.evolvesFrom = e.2.evolvesFrom := hefeq
    rw [hefeq2]
    cases hstr : strTruthy e.2.evolvesFrom with
    | false => rfl
    | true =>
      exfalso
      have hsome := (hrec e hem).2 hstr
      rw [hslnone] at hsome
      cases hsome

end TcgLogs

namespace TcgLogs

/-- Side condition on the groups away from the tracked card's group: key
and member names differ from `N` and no member evolves from `N`. -/
def GSide (N : String) (l : Groups) : Prop :=
  ∀ e ∈ l, (e : String × List DeckCard).1 ≠ N ∧
    ∀ d ∈ e.2, d.name ≠ N ∧ d.evolvesFrom ≠ some N

/-- The groups decompose around the tracked stage-0 card `C`, which heads
its own group; every other member anywhere is named differently, and
members outside `C`'s group do not evolve from `N`. -/
def GInv (N : String) (C : DeckCard) (gs : Groups) : Prop :=
  ∃ pre grp post, gs = pre ++ (N, C :: grp) :: post ∧
    GSide N pre ∧ GSide N post ∧ ∀ d ∈ grp, d.name ≠ N

theorem insertIntoGroup_mem (c d : DeckCard) :
    ∀ g, d ∈ insertIntoGroup c g → d = c ∨ d ∈ g := by
  intro g
  induction g with
  | nil =>
    intro h
    rw [insertIntoGroup, List.mem_singleton] at h
    exact Or.inl h
  | cons e rest ih =>
    intro h
    rw [insertIntoGroup] at h
    split at h
    · rcases List.mem_cons.mp h with h | h
      · exact Or.inl h
      · exact Or.inr h
    · rcases List.mem_cons.mp h with h | h
      · exact Or.inr (h ▸ List.mem_cons_self _ _)
      · rcases ih h with h | h
        · exact Or.inl h
        · exact Or.inr (List.mem_cons_of_mem _ h)

theorem insertIntoGroup_cons_zero (c c0 : DeckCard) (g : List DeckCard)
    (h : stageVal c0 = 0) :
    insertIntoGroup c (c0 :: g) = c0 :: insertIntoGroup c g := by
  rw [insertIntoGroup, if_neg]
  rw [h]
  exact Nat.not_lt_zero _

theorem insertByStage_mem (c d : DeckCard) :
    ∀ g, d ∈ insertByStage c g → d = c ∨ d ∈ g := by
  intro g
  induction g with
  | nil =>
    intro h
    rw [insertByStage, List.mem_singleton] at h
    exact Or.inl h
  | cons e rest ih =>
    intro h
    rw [insertByStage] at h
    split at h
    · rcases List.mem_cons.mp h with h | h
      · exact Or.inl h
      · exact Or.inr h
    · rcases List.mem_cons.mp h with h | h
      · exact Or.inr (h ▸ List.mem_cons_self _ _)
      · rcases ih h with h | h
        · exact Or.inl h
        · exact Or.inr (List.mem_cons_of_mem _ h)

theorem insertByStage_zero (c : DeckCard) (h : stageVal c = 0) :
    ∀ g, insertByStage c g = c :: g := by
  intro g
  cases g with
  | nil => rfl
  | cons d rest =>
    rw [insertByStage, if_pos]
    rw [h]
    exact Nat.zero_le _

theorem sortStage_mem (d : DeckCard) : ∀ g, d ∈ sortStage g → d ∈ g := by
  intro g
  induction g with
  | nil => intro h; exact h
  | cons e rest ih =>
    intro h
    rw [sortStage, List.foldr_cons] at h
    rcases insertByStage_mem e d _ h with h | h
    · exact h ▸ List.mem_cons_self _ _
    · exact List.mem_cons_of_mem _ (ih h)

theorem sortStage_cons_zero (c : DeckCard) (h : stageVal c = 0)
    (g : List DeckCard) : sortStage (c :: g) = c :: sortStage g := by
  rw [sortStage, List.foldr_cons, insertByStage_zero c h]
  rfl

theorem slookup_decomp {β : Type} (pre : List (String × β)) (N : String)
    (g : β) (post : List (String × β))
    (hpre : ∀ e ∈ pre, (e : String × β).1 ≠ N) :
    slookup (pre ++ (N, g) :: post) N = some g := by
  induction pre with
  | nil => simp [slookup]
  | cons e rest ih =>
    obtain ⟨k0, v0⟩ := e
    rw [List.cons_append, slookup, if_neg (hpre _ (List.mem_cons_self _ _))]
    exact ih (fun e he => hpre e (List.mem_cons_of_mem _ he))

theorem updateGroup_append (l1 l2 : Groups) (k : String) (c : DeckCard) :
    updateGroup (l1 ++ l2) k c = updateGroup l1 k c ++ updateGroup l2 k c := by
  simp [updateGroup]

theorem updateGroup_cons (k0 : String) (g0 : List DeckCard) (l : Groups)
    (k : String) (c : DeckCard) :
    updateGroup ((k0, g0) :: l) k c =
      (if k0 = k then (k0, insertIntoGroup c g0) else (k0, g0)) ::
        updateGroup l k c := by
  rfl

theorem updateGroup_untouched (l : Groups) (k : String) (c : DeckCard)
    (h : ∀ e ∈ l, (e : String × List DeckCard).1 ≠ k) :
    updateGroup l k c = l := by
  induction l with
  | nil => rfl
  | cons e rest ih =>
    obtain ⟨k0, g0⟩ := e
    rw [updateGroup_cons, if_neg (h _ (List.mem_cons_self _ _)),
      ih (fun e he => h e (List.mem_cons_of_mem _ he))]

theorem updateGroup_side (N : String) (l : Groups) (k : String) (c : DeckCard)
    (hc : c.name ≠ N ∧ c.evolvesFrom ≠ some N) (h : GSide N l) :
    GSide N (updateGroup l k c) := by
  intro e he
  unfold updateGroup at he
  rw [List.mem_map] at he
  obtain ⟨⟨k0, g0⟩, hmem, hmap⟩ := he
  obtain ⟨hk0, hg0⟩ := h _ hmem
  dsimp only at hmap
  by_cases hkk : k0 = k
  · rw [if_pos hkk] at hmap
    subst hmap
    refine ⟨hk0, ?_⟩
    intro d hd
    rcases insertIntoGroup_mem c d g0 hd with hd | hd
    · subst hd
      exact hc
    · exact hg0 d hd
  · rw [if_neg hkk] at hmap
    subst hmap
    exact ⟨hk0, hg0⟩

theorem addToGroups_inv (N : String) (C : DeckCard) (hC0 : stageVal C = 0)
    (gs : Groups) (c : DeckCard) (root : String)
    (hcn : c.name ≠ N) (hcef : c.evolvesFrom = some root)
    (h : GInv N C gs) : GInv N C (addToGroups gs c root) := by
  obtain ⟨pre, grp, post, hgs, hpre, hpost, hgrp⟩ := h
  subst hgs
  have hupdN : GInv N C (updateGroup (pre ++ (N, C :: grp) :: post) N c) := by
    rw [updateGroup_append, updateGroup_cons, if_pos rfl,
      updateGroup_untouched pre _ _ (fun e he => (hpre e he).1),
      updateGroup_untouched post _ _ (fun e he => (hpost e he).1),
      insertIntoGroup_cons_zero c C grp hC0]
    refine ⟨pre, insertIntoGroup c grp, post, rfl, hpre, hpost, ?_⟩
    intro d hd
    rcases insertIntoGroup_mem c d grp hd with hd | hd
    · subst hd
      exact hcn
    · exact hgrp d hd
  unfold addToGroups
  by_cases hroot : root = N
  · subst hroot
    have hsl : slookup (pre ++ (root, C :: grp) :: post) root = some (C :: grp) :=
      slookup_decomp pre root _ post (fun e he => (hpre e he).1)
    rw [if_pos (by rw [hsl]; rfl)]
    exact hupdN
  · have hcefN : c.evolvesFrom ≠ some N := by
      rw [hcef]
      exact fun hh => hroot (Option.some.inj hh)
    have hupdNe : ∀ k1 : String, k1 ≠ N →
        GInv N C (updateGroup (pre ++ (N, C :: grp) :: post) k1 c) := by
      intro k1 hk1
      rw [updateGroup_append, updateGroup_cons, if_neg (fun hh => hk1 hh.symm)]
      refine ⟨updateGroup pre k1 c, grp, updateGroup post k1 c, rfl, ?_, ?_, hgrp⟩
      · exact updateGroup_side N pre k1 c ⟨hcn, hcefN⟩ hpre
      · exact updateGroup_side N post k1 c ⟨hcn, hcefN⟩ hpost
    cases hslb : (slookup (pre ++ (N, C :: grp) :: post) root).isSome with
    | true =>
      rw [if_pos rfl]
      exact hupdNe root hroot
    | false =>
      rw [if_neg Bool.false_ne_true]
      cases hscan : scanGroups (pre ++ (N, C :: grp) :: post) root with
      | some k1 =>
        by_cases hk1 : k1 = N
        · subst hk1
          exact hupdN
        · exact hupdNe k1 hk1
      | none =>
        refine ⟨pre, grp, post ++ [(c.name, [c])], by simp, hpre, ?_, hgrp⟩
        intro e he
        rcases List.mem_append.mp he with he | he
        · exact hpost e he
        · rw [List.mem_singleton] at he
          subst he
          refine ⟨hcn, ?_⟩
          intro d hd
          rw [List.mem_singleton] at hd
          subst hd
          exact ⟨hcn, hcefN⟩

end TcgLogs

namespace TcgLogs

theorem seed_pres (N : String) (C : DeckCard) (cards : List DeckCard)
    (huniq : ∀ d ∈ cards, d.name = N → d = C)
    (h0 : ∀ d ∈ cards, d.evolutionStage = some 0 →
      strTruthy d.evolvesFrom = false)
    (hN : N ≠ "") :
    ∀ (todo : List DeckCard), (∀ d ∈ todo, d ∈ cards ∧ d ≠ C) →
    ∀ gs0, ∃ add, todo.foldl
        (fun gs c =>
          if c.evolutionStage = some 0 ∨ strTruthy c.evolvesFrom = false then
            gs ++ [(c.name, [c])]
          else gs) gs0 = gs0 ++ add ∧ GSide N add := by
  intro todo
  induction todo with
  | nil =>
    intro _ gs0
    exact ⟨[], by simp, fun e he => absurd he (List.not_mem_nil e)⟩
  | cons c rest ih =>
    intro hsub gs0
    obtain ⟨hc_cards, hc_ne⟩ := hsub c (List.mem_cons_self _ _)
    simp only [List.foldl_cons]
    by_cases hseed : c.evolutionStage = some 0 ∨ strTruthy c.evolvesFrom = false
    · rw [if_pos hseed]
      obtain ⟨add, hadd, hside⟩ :=
        ih (fun d hd => hsub d (List.mem_cons_of_mem _ hd)) (gs0 ++ [(c.name, [c])])
      refine ⟨(c.name, [c]) :: add, by rw [hadd]; simp, ?_⟩
      have hcnN : c.name ≠ N := fun hh => hc_ne (huniq c hc_cards hh)
      have hcefN : c.evolvesFrom ≠ some N := by
        intro hh
        have htr : strTruthy c.evolvesFrom = true := by
          rw [hh]
          simpa [strTruthy] using hN
        rcases hseed with hs | hs
        · rw [h0 c hc_cards hs] at htr
          cases htr
        · rw [hs] at htr
          cases htr
      intro e he
      rcases List.mem_cons.mp he with he | he
      · subst he
        refine ⟨hcnN, ?_⟩
        intro d hd
        rw [List.mem_singleton] at hd
        subst hd
        exact ⟨hcnN, hcefN⟩
      · exact hside e he
    · rw [if_neg hseed]
      exact ih (fun d hd => hsub d (List.mem_cons_of_mem _ hd)) gs0

theorem pass2_pres (N : String) (C : DeckCard) (cards : List DeckCard)
    (huniq : ∀ d ∈ cards, d.name = N → d = C)
    (hC0 : stageVal C = 0) (hCef : strTruthy C.evolvesFrom = false) :
    ∀ (todo : List DeckCard), (∀ d ∈ todo, d ∈ cards) →
    ∀ gs, GInv N C gs →
    GInv N C (todo.foldl
      (fun gs card =>
        match card.evolvesFrom with
        | some root => if root ≠ "" then addToGroups gs card root else gs
        | none => gs) gs) := by
  intro todo
  induction todo with
  | nil =>
    intro _ gs h
    exact h
  | cons c rest ih =>
    intro hsub gs h
    simp only [List.foldl_cons]
    refine ih (fun d hd => hsub d (List.mem_cons_of_mem _ hd)) _ ?_
    cases hcef : c.evolvesFrom with
    | none => exact h
    | some root =>
      dsimp only
      split
      · rename_i hrne
        have hcn : c.name ≠ N := by
          intro hcn
          have hcC : c = C := huniq c (hsub c (List.mem_cons_self _ _)) hcn
          rw [hcC] at hcef
          rw [hcef] at hCef
          simp [strTruthy] at hCef
          exact hrne hCef
        exact addToGroups_inv N C hC0 gs c root hcn hcef h
      · exact h

/-- All group members come from the input card list. -/
def GMem (cards : List DeckCard) (gs : Groups) : Prop :=
  ∀ e ∈ gs, ∀ d ∈ (e : String × List DeckCard).2, d ∈ cards

theorem updateGroup_gmem (cards : List DeckCard) (gs : Groups) (k : String)
    (c : DeckCard) (hc : c ∈ cards) (h : GMem cards gs) :
    GMem cards (updateGroup gs k c) := by
  intro e he
  unfold updateGroup at he
  rw [List.mem_map] at he
  obtain ⟨⟨k0, g0⟩, hmem, hmap⟩ := he
  dsimp only at hmap
  by_cases hkk : k0 = k
  · rw [if_pos hkk] at hmap
    subst hmap
    intro d hd
    rcases insertIntoGroup_mem c d g0 hd with hd | hd
    · subst hd
      exact hc
    · exact h _ hmem d hd
  · rw [if_neg hkk] at hmap
    subst hmap
    exact h _ hmem

theorem addToGroups_gmem (cards : List DeckCard) (gs : Groups) (c : DeckCard)
    (root : String) (hc : c ∈ cards) (h : GMem cards gs) :
    GMem cards (addToGroups gs c root) := by
  unfold addToGroups
  split
  · exact updateGroup_gmem cards gs root c hc h
  · cases scanGroups gs root with
    | some k1 => exact updateGroup_gmem cards gs k1 c hc h
    | none =>
      intro e he
      rcases List.mem_append.mp he with he | he
      · exact h e he
      · rw [List.mem_singleton] at he
        subst he
        intro d hd
        rw [List.mem_singleton] at hd
        subst hd
        exact hc

theorem seed_gmem (cards : List DeckCard) :
    ∀ (todo : List DeckCard), (∀ d ∈ todo, d ∈ cards) →
    ∀ gs, GMem cards gs →
    GMem cards (todo.foldl
      (fun gs c =>
        if c.evolutionStage = some 0 ∨ strTruthy c.evolvesFrom = false then
          gs ++ [(c.name, [c])]
        else gs) gs) := by
  intro todo
  induction todo with
  | nil =>
    intro _ gs h
    exact h
  | cons c rest ih =>
    intro hsub gs h
    simp only [List.foldl_cons]
    refine ih (fun d hd => hsub d (List.mem_cons_of_mem _ hd)) _ ?_
    split
    · intro e he
      rcases List.mem_append.mp he with he | he
      · exact h e he
      · rw [List.mem_singleton] at he
        subst he
        intro d hd
        rw [List.mem_singleton] at hd
        subst hd
        exact hsub _ (List.mem_cons_self _ _)
    · exact h

theorem pass2_gmem (cards : List DeckCard) :
    ∀ (todo : List DeckCard), (∀ d ∈ todo, d ∈ cards) →
    ∀ gs, GMem cards gs →
    GMem cards (todo.foldl
      (fun gs card =>
        match card.evolvesFrom with
        | some root => if root ≠ "" then addToGroups gs card root else gs
        | none => gs) gs) := by
  intro todo
  induction todo with
  | nil =>
    intro _ gs h
    exact h
  | cons c rest ih =>
    intro hsub gs h
    simp only [List.foldl_cons]
    refine ih (fun d hd => hsub d (List.mem_cons_of_mem _ hd)) _ ?_
    cases c.evolvesFrom with
    | none => exact h
    | some root =>
      dsimp only
      split
      · exact addToGroups_gmem cards gs c root (hsub c (List.mem_cons_self _ _)) h
      · exact h

theorem sortByEvolutionLine_mem (cards : List DeckCard) (d : DeckCard)
    (hd : d ∈ sortByEvolutionLine cards) : d ∈ cards := by
  simp only [sortByEvolutionLine] at hd
  rw [List.mem_flatten] at hd
  obtain ⟨l, hl, hdl⟩ := hd
  rw [List.mem_map] at hl
  obtain ⟨e, he, hfe⟩ := hl
  subst hfe
  have hmem : GMem cards
      (cards.foldl
        (fun gs card =>
          match card.evolvesFrom with
          | some root => if root ≠ "" then addToGroups gs card root else gs
          | none => gs)
        (seedGroups cards)) := by
    refine pass2_gmem cards cards (fun d hd => hd) _ ?_
    unfold seedGroups
    refine seed_gmem cards cards (fun d hd => hd) [] ?_
    intro e he
    cases he
  exact hmem e he d (sortStage_mem d _ hdl)

/-- A stage-0 card with a non-empty name heads its evolution group: the
sorted Pokemon list splits around it, everything before it neither carries
its name nor evolves from it, and everything after it carries another
name. -/
theorem sortByEvolutionLine_decomp (cards : List DeckCard) (C : DeckCard)
    (hnodup : (cards.map DeckCard.name).Nodup)
    (h0 : ∀ c ∈ cards, c.evolutionStage = some 0 →
      strTruthy c.evolvesFrom = false)
    (hCmem : C ∈ cards) (hCst : C.evolutionStage = some 0)
    (hCname : C.name ≠ "") :
    ∃ L1 L2 : List DeckCard,
      sortByEvolutionLine cards = L1 ++ C :: L2 ∧
      (∀ d ∈ L1, d.name ≠ C.name ∧ d.evolvesFrom ≠ some C.name) ∧
      (∀ d ∈ L2, d.name ≠ C.name) := by
  have huniq : ∀ d ∈ cards, d.name = C.name → d = C := by
    intro d hd hdn
    exact List.inj_on_of_nodup_map hnodup hd hCmem hdn
  have hC0 : stageVal C = 0 := by simp [stageVal, hCst]
  have hCef : strTruthy C.evolvesFrom = false := h0 C hCmem hCst
  obtain ⟨u, v, huv⟩ := List.append_of_mem hCmem
  have hcnodup : cards.Nodup := List.Nodup.of_map _ hnodup
  rw [huv] at hcnodup
  rw [List.nodup_append] at hcnodup
  have hCu : C ∉ u := fun hCu =>
    hcnodup.2.2 hCu (List.mem_cons_self _ _)
  have hCv : C ∉ v := (List.nodup_cons.mp hcnodup.2.1).1
  have hseedinv : GInv C.name C (seedGroups cards) := by
    unfold seedGroups
    rw [huv, List.foldl_append, List.foldl_cons]
    obtain ⟨addu, haddu, hsideu⟩ :=
      seed_pres C.name C cards huniq h0 hCname u
        (fun d hd => ⟨by rw [huv]; exact List.mem_append_left _ hd,
          fun hdc => hCu (hdc ▸ hd)⟩) []
    rw [haddu, if_pos (Or.inl hCst)]
    obtain ⟨addv, haddv, hsidev⟩ :=
      seed_pres C.name C cards huniq h0 hCname v
        (fun d hd => ⟨by
            rw [huv]
            exact List.mem_append_right _ (List.mem_cons_of_mem _ hd),
          fun hdc => hCv (hdc ▸ hd)⟩)
        (([] ++ addu) ++ [(C.name, [C])])
    rw [haddv]
    refine ⟨addu, [], addv, by simp, hsideu, hsidev, ?_⟩
    intro d hd
    cases hd
  have hinv2 : GInv C.name C
      (cards.foldl
        (fun gs card =>
          match card.evolvesFrom with
          | some root => if root ≠ "" then addToGroups gs card root else gs
          | none => gs)
        (seedGroups cards)) :=
    pass2_pres C.name C cards huniq hC0 hCef cards (fun d hd => hd) _ hseedinv
  obtain ⟨pre, grp, post, hgs, hpre, hpost, hgrp⟩ := hinv2
  refine ⟨(pre.map (fun e => sortStage e.2)).flatten,
    sortStage grp ++ (post.map (fun e => sortStage e.2)).flatten, ?_, ?_, ?_⟩
  · simp only [sortByEvolutionLine]
    rw [hgs, List.map_append, List.map_cons, List.flatten_append,
      List.flatten_cons]
    dsimp only
    rw [sortStage_cons_zero C hC0 grp]
    simp
  · intro d hd
    rw [List.mem_flatten] at hd
    obtain ⟨l, hl, hdl⟩ := hd
    rw [List.mem_map] at hl
    obtain ⟨e, he, hfe⟩ := hl
    subst hfe
    exact (hpre e he).2 d (sortStage_mem d _ hdl)
  · intro d hd
    rcases List.mem_append.mp hd with hd | hd
    · exact hgrp d (sortStage_mem d _ hd)
    · rw [List.mem_flatten] at hd
      obtain ⟨l, hl, hdl⟩ := hd
      rw [List.mem_map] at hl
      obtain ⟨e, he, hfe⟩ := hl
      subst hfe
      exact ((hpost e he).2 d (sortStage_mem d _ hdl)).1

end TcgLogs

namespace TcgLogs

theorem get_append_cases {α : Type} (l1 l2 : List α) (c : α) (k : Nat)
    (hk : k < (l1 ++ c :: l2).length) :
    ((l1 ++ c :: l2).get ⟨k, hk⟩ ∈ l1 ∧ k < l1.length) ∨
    ((l1 ++ c :: l2).get ⟨k, hk⟩ = c ∧ k = l1.length) ∨
    ((l1 ++ c :: l2).get ⟨k, hk⟩ ∈ l2 ∧ l1.length < k) := by
  rcases Nat.lt_trichotomy k l1.length with h | h | h
  · left
    refine ⟨?_, h⟩
    rw [List.get_eq_getElem, List.getElem_append_left h]
    exact List.getElem_mem _
  · right
    left
    refine ⟨?_, h⟩
    rw [List.get_eq_getElem]
    subst h
    rw [List.getElem_append_right (Nat.le_refl _)]
    simp
  · right
    right
    refine ⟨?_, h⟩
    rw [List.get_eq_getElem, List.getElem_append_right (Nat.le_of_lt h)]
    obtain ⟨d, hd⟩ : ∃ d, k - l1.length = d + 1 := ⟨k - l1.length - 1, by omega⟩
    simp only [hd, List.getElem_cons_succ]
    exact List.getElem_mem _

theorem split_index_lt {α : Type} {out L1 L2 : List α} {c : α}
    (hout : out = L1 ++ c :: L2) (i j : Nat)
    (hi : i < out.length) (hj : j < out.length)
    (Pname Pef : α → Prop)
    (hL1 : ∀ d ∈ L1, ¬ Pname d ∧ ¬ Pef d)
    (hL2 : ∀ d ∈ L2, ¬ Pname d)
    (hcef : ¬ Pef c)
    (hiname : Pname (out.get ⟨i, hi⟩))
    (hjef : Pef (out.get ⟨j, hj⟩)) : i < j := by
  subst hout
  rcases get_append_cases L1 L2 c i hi with ⟨hm, _⟩ | ⟨_, heq⟩ | ⟨hm, _⟩
  · exact absurd hiname (hL1 _ hm).1
  · rcases get_append_cases L1 L2 c j hj with ⟨hm2, _⟩ | ⟨he2, _⟩ | ⟨_, hgt2⟩
    · exact absurd hjef (hL1 _ hm2).2
    · rw [he2] at hjef
      exact absurd hjef hcef
    · omega
  · exact absurd hiname (hL2 _ hm)

theorem sortByEvolutionLine_stage0_first (cards : List DeckCard)
    (hnodup : (cards.map DeckCard.name).Nodup)
    (h0 : ∀ c ∈ cards, c.evolutionStage = some 0 →
      strTruthy c.evolvesFrom = false)
    (i j : Nat) (hi : i < (sortByEvolutionLine cards).length)
    (hj : j < (sortByEvolutionLine cards).length)
    (hef : ((sortByEvolutionLine cards).get ⟨j, hj⟩).evolvesFrom =
      some (((sortByEvolutionLine cards).get ⟨i, hi⟩).name))
    (hne : ((sortByEvolutionLine cards).get ⟨i, hi⟩).name ≠ "")
    (hst : ((sortByEvolutionLine cards).get ⟨i, hi⟩).evolutionStage = some 0) :
    i < j := by
  have hCmem : (sortByEvolutionLine cards).get ⟨i, hi⟩ ∈ cards :=
    sortByEvolutionLine_mem cards _ (List.get_mem _ _ _)
  obtain ⟨L1, L2, hout, hL1, hL2⟩ :=
    sortByEvolutionLine_decomp cards _ hnodup h0 hCmem hst hne
  refine split_index_lt hout i j hi hj
    (fun d => d.name = ((sortByEvolutionLine cards).get ⟨i, hi⟩).name)
    (fun d => d.evolvesFrom =
      some (((sortByEvolutionLine cards).get ⟨i, hi⟩).name))
    hL1 (fun d hd => (hL2 d hd)) ?_ rfl hef
  intro hh
  have htr : strTruthy
      ((sortByEvolutionLine cards).get ⟨i, hi⟩).evolvesFrom = true := by
    rw [hh]
    simpa [strTruthy] using hne
  rw [h0 _ hCmem hst] at htr
  cases htr

/-- C3 (amended): in every deck produced by `reconstructDecks`, a Pokemon
card that evolves from the non-empty name of a stage-0 card of the same
list appears strictly after that card. -/
theorem c3_basic_preevolution_first :
    ∀ (md : MatchData) (decks : PlayerDecks) (p : String)
      (deck : ReconstructedDeck) (i j : Nat)
      (hi : i < deck.pokemon.length) (hj : j < deck.pokemon.length),
      reconstructDecks md = some decks →
      slookup decks p = some deck →
      (deck.pokemon.get ⟨j, hj⟩).evolvesFrom =
        some ((deck.pokemon.get ⟨i, hi⟩).name) →
      (deck.pokemon.get ⟨i, hi⟩).name ≠ "" →
      (deck.pokemon.get ⟨i, hi⟩).evolutionStage = some 0 →
      i < j := by
  intro md decks p deck i j hi hj hrd hlk hef hne hst
  obtain ⟨m1, m2, h1, h2, hdecks⟩ := reconstructDecks_inv md decks hrd
  subst hdecks
  rcases slookup_two_upserts _ _ _ _ _ _ hlk with hd | hd
  · subst hd
    obtain ⟨hnodup, h0⟩ := pokemonCards_facts md.events md.players.1.username m1 h1
    exact sortByEvolutionLine_stage0_first _ hnodup h0 i j hi hj hef hne hst
  · subst hd
    obtain ⟨hnodup, h0⟩ := pokemonCards_facts md.events md.players.2.username m2 h2
    exact sortByEvolutionLine_stage0_first _ hnodup h0 i j hi hj hef hne hst

/-- C3 witness: the amended ordering applied to every pair of positions
of the concrete Scenario-4 deck. -/
theorem c3_basic_preevolution_first_witness :
    ((reconstructDecks c3md4).bind (fun ds => slookup ds "P1")).elim False
      (fun deck => ∀ (i j : Nat) (hi : i < deck.pokemon.length)
        (hj : j < deck.pokemon.length),
        (deck.pokemon.get ⟨j, hj⟩).evolvesFrom =
          some ((deck.pokemon.get ⟨i, hi⟩).name) →
        (deck.pokemon.get ⟨i, hi⟩).name ≠ "" →
        (deck.pokemon.get ⟨i, hi⟩).evolutionStage = some 0 →
        i < j) := by
  cases hrd : reconstructDecks c3md4 with
  | none =>
    have hs : (reconstructDecks c3md4).isSome = true := by decide
    rw [hrd] at hs
    simp at hs
  | some decks =>
    rw [show (some decks).bind (fun ds => slookup ds "P1") =
      slookup decks "P1" from rfl]
    cases hlk : slookup decks "P1" with
    | none =>
      have hs : ((reconstructDecks c3md4).bind
          (fun ds => slookup ds "P1")).isSome = true := by decide
      rw [hrd] at hs
      rw [show (some decks).bind (fun ds => slookup ds "P1") =
        slookup decks "P1" from rfl, hlk] at hs
      simp at hs
    | some deck =>
      intro i j hi hj hef hne hst
      exact c3_basic_preevolution_first c3md4 decks "P1" deck i j hi hj
        hrd hlk hef hne hst

end TcgLogs
